import Mathlib

/-!
Verification development for a local-network Daikin air-conditioner driver.

The development shallowly embeds the core of the driver:
the nested pn/pv/pch attribute-tree request codec (DaikinRequest.serialize),
the response path lookup (find_value_by_pn), hex/temperature conversion,
the polling state machine (update) with its failure backoff, the command
dispatch paths (set_hvac_mode, set_temperature, update_attribute), and the
derived energy sensors.  Machine integers are modelled as Nat/Int, Python
floats as rationals, raised exceptions as Option/failure branches, and the
heterogeneous JSON leaf values as an explicit JVal type.
-/

/-- A JSON leaf value as it occurs in device responses: a string, a number,
or an array of numbers (the weekly energy series). -/
inductive JVal where
  | s (str : String)
  | n (q : ℚ)
  | arr (l : List ℚ)
  | b (bv : Bool)
deriving DecidableEq, Repr

/-- A node of a request attribute tree: the dict with keys pn, optionally pv,
optionally pch.  Presence of the pch key matters to the serializer
(it uses setdefault), so pch is an Option. -/
structure PNode where
  pn : String
  pv : Option String
  pch : Option (List PNode)
deriving Repr

/-- A node of a response attribute tree.  On the read side only the values
matter (found.get reads pv and pch with defaults), so pch is a plain list
and pv an optional JSON value. -/
structure RNode where
  pn : String
  pv : Option JVal
  pch : List RNode
deriving Repr

/-- One entry of the multireq responses array: fr, rsc and the pc tree. -/
structure RespBlock where
  fr : String
  rsc : Option Nat
  pc : RNode

/-- A parsed response body: the responses list. -/
abbrev RespData := List RespBlock

/-- A single leaf write target, mirroring the DaikinAttribute dataclass. -/
structure DaikinAttribute where
  name : String
  value : String
  path : List String
  dest : String

/-- One request object of a serialized payload: the dict op/to/pc. -/
structure RequestObj where
  op : Nat
  dest : String
  pc : PNode

/-- A serialized write payload: the requests list. -/
abbrev Payload := List RequestObj

/-- Split a list around the first element satisfying p:
returns (prefix before it, the element, the rest). -/
def splitFirstBy (p : α → Bool) : List α → Option (List α × α × List α)
  | [] => none
  | x :: xs =>
    if p x then some ([], x, xs)
    else (splitFirstBy p xs).map (fun r => (x :: r.1, r.2.1, r.2.2))

/-- The final step of DaikinRequest.serialize for one attribute: in the
children list of the node reached by the path, overwrite the pv of the
first child whose pn equals the attribute name, or append the
{pn, pv} leaf produced by DaikinAttribute.format. -/
def setLeafValue : List PNode → String → String → List PNode
  | [], name, value => [PNode.mk name (some value) none]
  | c :: cs, name, value =>
    if c.pn = name then PNode.mk c.pn (some value) c.pch :: cs
    else c :: setLeafValue cs name value

/-- The path walk of DaikinRequest.serialize, expressed on children lists:
at each path key, find the first child with that pn and descend into its
(possibly newly created) pch, or append a fresh {pn, pch: []} node and
descend into it; at the end of the path, install the leaf. -/
def insertPathC : List PNode → List String → String → String → List PNode
  | chs, [], name, value => setLeafValue chs name value
  | chs, key :: ks, name, value =>
    match splitFirstBy (fun c => c.pn == key) chs with
    | some (pre, c, post) =>
      pre ++ PNode.mk c.pn c.pv (some (insertPathC (c.pch.getD []) ks name value)) :: post
    | none =>
      chs ++ [PNode.mk key none (some (insertPathC [] ks name value))]

/-- The characters of s after the last occurrence of sep
(all of s when sep does not occur), as in Python rsplit(sep, 1)[-1]
and split(sep)[-1]. -/
def afterLastSep (sep : Char) (s : String) : String :=
  String.mk (s.data.foldl (fun acc c => if c = sep then [] else acc ++ [c]) [])

/-- Root pn derivation of ensure_request: the part of the destination after
the last slash, then after the last dot, falling back to the pre-dot part
when that is empty. -/
def rootPn (dest : String) : String :=
  let last := afterLastSep '/' dest
  let cand := afterLastSep '.' last
  if cand = "" then last else cand

/-- One iteration of the serialize loop: ensure_request on the destination,
then walk the path and install the leaf. -/
def serializeStep (reqs : Payload) (attr : DaikinAttribute) : Payload :=
  match splitFirstBy (fun r => r.dest == attr.dest) reqs with
  | some (pre, r, post) =>
    pre ++ RequestObj.mk r.op r.dest
      (PNode.mk r.pc.pn r.pc.pv
        (some (insertPathC (r.pc.pch.getD []) attr.path attr.name attr.value))) :: post
  | none =>
    reqs ++ [RequestObj.mk 3 attr.dest
      (PNode.mk (rootPn attr.dest) none
        (some (insertPathC [] attr.path attr.name attr.value)))]

/-- DaikinRequest.serialize starting from the fresh payload
(payload is None, so requests starts empty). -/
def serialize (attrs : List DaikinAttribute) : Payload :=
  attrs.foldl serializeStep []

/-- Read-side observation of a request tree: follow the path by first
matching pn at each level, then return the pv of the first child with the
attribute name. -/
def lookupPath : List PNode → List String → String → Option String
  | chs, [], name =>
    match chs.find? (fun c => c.pn == name) with
    | some c => c.pv
    | none => none
  | chs, key :: ks, name =>
    match chs.find? (fun c => c.pn == key) with
    | some c => lookupPath (c.pch.getD []) ks name
    | none => none

/-- Children list reached from chs by following a name path, first match
at each level ([] when a level has no match). -/
def nodesAt : List PNode → List String → List PNode
  | chs, [] => chs
  | chs, key :: ks =>
    match chs.find? (fun c => c.pn == key) with
    | some c => nodesAt (c.pch.getD []) ks
    | none => []

/-- Boolean no-duplicates check on a list of strings. -/
def strNodup : List String → Bool
  | [] => true
  | s :: rest => !(rest.contains s) && strNodup rest

/-- Every reachable nesting level of the forest has pairwise distinct child
names. -/
def wfChildren (chs : List PNode) : Prop :=
  ∀ q : List String, strNodup ((nodesAt chs q).map (fun c => c.pn)) = true

/-- Observation of a serialized payload: the request for the destination
(first match on to), then lookupPath inside its tree. -/
def serLookup (reqs : Payload) (dest : String) (path : List String) (name : String) :
    Option String :=
  match reqs.find? (fun r => r.dest == dest) with
  | some r => lookupPath (r.pc.pch.getD []) path name
  | none => none

/-- The value of the last write in attrs aimed at the given destination,
path and attribute name, if any. -/
def lastWrite (attrs : List DaikinAttribute) (dest : String) (path : List String)
    (name : String) : Option String :=
  (attrs.filterMap (fun a =>
    if a.dest = dest ∧ a.path = path ∧ a.name = name then some a.value else none)).getLast?

/-- find_value_by_pn's walk: cur starts as the pc blocks whose fr matches;
each key selects the first node with that pn and descends into its pch;
a missing key raises (modelled as none); the final matched node is
returned. -/
def findAux : List RNode → List String → Option RNode
  | _, [] => none
  | cur, [key] => cur.find? (fun pc => pc.pn == key)
  | cur, key :: ks =>
    match cur.find? (fun pc => pc.pn == key) with
    | some nd => findAux nd.pch ks
    | none => none

/-- LocalDaikinClimate.find_value_by_pn: none models the raised exception
(key not found, or the empty key walk leaving found unbound); otherwise the
pv of the final node (itself possibly absent). -/
def find_value_by_pn (data : RespData) (fr : String) (keys : List String) :
    Option (Option JVal) :=
  (findAux ((data.filter (fun b => b.fr == fr)).map (fun b => b.pc)) keys).map
    (fun nd => nd.pv)

/-- Numeric value of one hex digit character (Python int accepts both
cases); none models the ValueError for a non-hex character. -/
def hexDigitVal : Char → Option Nat
  | c =>
    if 48 ≤ c.toNat ∧ c.toNat ≤ 57 then some (c.toNat - 48)
    else if 65 ≤ c.toNat ∧ c.toNat ≤ 70 then some (c.toNat - 55)
    else if 97 ≤ c.toNat ∧ c.toNat ≤ 102 then some (c.toNat - 87)
    else none

/-- Accumulate hex digits left to right. -/
def parseHexAux : Nat → List Char → Option Nat
  | acc, [] => some acc
  | acc, c :: cs =>
    match hexDigitVal c with
    | some d => parseHexAux (16 * acc + d) cs
    | none => none

/-- Python int(s, 16) on a plain digit string: at least one digit, all hex. -/
def parseHexNum : List Char → Option Nat
  | [] => none
  | cs => parseHexAux 0 cs

/-- int(hex_value[:2], 16): parse the first two characters. -/
def parseHex2 (s : String) : Option Nat :=
  parseHexNum (s.data.take 2)

/-- int(s, 16) on the whole string. -/
def parseHexAll (s : String) : Option Nat :=
  parseHexNum s.data

/-- LocalDaikinClimate.hex_to_temp: first byte as unsigned, two's-complement
above 127, divided by the divisor.  The Python round(x, 1) is the identity
here because every call site uses divisor 1 or 2, making the quotient an
exact multiple of one half. -/
def hex_to_temp (hex_value : String) (divisor : Nat) : Option ℚ :=
  (parseHex2 hex_value).map (fun (raw : Nat) =>
    ((if 128 ≤ raw then (raw : ℤ) - 256 else (raw : ℤ)) : ℚ) / (divisor : ℚ))

/-- HVAC operating modes (HVACMode values used by the driver). -/
inductive HVACMode where
  | off | heat | cool | auto | dry | fanOnly
deriving DecidableEq, Repr

/-- Fan speed names (HAFanMode). -/
inductive HAFanMode where
  | quiet | auto | level1 | level2 | level3 | level4 | level5
deriving DecidableEq, Repr

/-- Combined swing state (SWING_OFF / SWING_BOTH / SWING_VERTICAL /
SWING_HORIZONTAL). -/
inductive SwingMode where
  | off | both | vertical | horizontal
deriving DecidableEq, Repr

/-- MODE_MAP.get(mode_hex, HVACMode.COOL): hex to mode, anything
unrecognized (including a missing or non-string pv) defaults to Cool. -/
def modeFromHex : Option JVal → HVACMode
  | some (JVal.s "0000") => .fanOnly
  | some (JVal.s "0100") => .heat
  | some (JVal.s "0200") => .cool
  | some (JVal.s "0300") => .auto
  | some (JVal.s "0500") => .dry
  | _ => .cool

/-- The first MODE_MAP key whose value is the given mode (the reverse
lookup loop in set_hvac_mode), none for Off. -/
def modeToHex : HVACMode → Option String
  | .fanOnly => some "0000"
  | .heat => some "0100"
  | .cool => some "0200"
  | .auto => some "0300"
  | .dry => some "0500"
  | .off => none

/-- REVERSE_FAN_MODE_MAP.get(hex_value, HAFanMode.FAN_AUTO). -/
def fanFromHex : Option JVal → HAFanMode
  | some (JVal.s "0A00") => .auto
  | some (JVal.s "0B00") => .quiet
  | some (JVal.s "0300") => .level1
  | some (JVal.s "0400") => .level2
  | some (JVal.s "0500") => .level3
  | some (JVal.s "0600") => .level4
  | some (JVal.s "0700") => .level5
  | _ => .auto

/-- FAN_MODE_MAP.get(fan_mode, FAN_MODE_MAP[FAN_AUTO]). -/
def fanToHex : HAFanMode → String
  | .auto => "0A00"
  | .quiet => "0B00"
  | .level1 => "0300"
  | .level2 => "0400"
  | .level3 => "0500"
  | .level4 => "0600"
  | .level5 => "0700"

/-- HVAC_MODE_TO_FAN_SPEED_ATTR_NAME.get(mode): Dry maps to None and Off is
absent from the dict, both yielding none. -/
def fanSpeedAttrName : HVACMode → Option String
  | .cool => some "p_09"
  | .heat => some "p_09"
  | .fanOnly => some "p_09"
  | .auto => some "p_09"
  | .dry => none
  | .off => none

/-- HVAC_MODE_TO_SWING_ATTR_NAMES.get(mode, (None, None)): Off is absent
from the dict. -/
def swingAttrNames : HVACMode → Option String × Option String
  | .off => (none, none)
  | _ => (some "p_05", some "p_06")

/-- HVAC_TO_TEMP_HEX.get(mode): Fan-only and Dry map to None and Off is
absent, all yielding none. -/
def hvacToTempHex : HVACMode → Option String
  | .cool => some "p_02"
  | .heat => some "p_03"
  | .auto => some "p_02"
  | .fanOnly => none
  | .dry => none
  | .off => none

/-- The backoff ladder in seconds. -/
def BACKOFFS : List Nat := [10, 30, 60, 120, 300]

/-- Destination of the primary unit status tree. -/
def adrStatus : String := "/dsiot/edge/adr_0100.dgc_status"

/-- Destination of the outdoor unit status tree. -/
def adr2Status : String := "/dsiot/edge/adr_0200.dgc_status"

/-- Destination of the weekly power tree. -/
def adrWeek : String := "/dsiot/edge/adr_0100.i_power.week_power"

/-- The mutable snapshot of LocalDaikinClimate that the poll cycle and the
command dispatchers touch.  Times are naturals (time.monotonic values). -/
structure ClimState where
  hvacMode : HVACMode
  fanMode : HAFanMode
  swingMode : SwingMode
  targetTemperature : Option ℚ
  currentTemperature : Option ℚ
  currentHumidity : Option Nat
  outsideTemperature : Option ℚ
  energyToday : Option ℚ
  runtimeToday : Option JVal
  coolHumidityEnabled : Option Bool
  coolHumidityTarget : Option Nat
  vaneVertHex : Option JVal
  vaneHorzHex : Option JVal
  vaneVertAttr : Option String
  vaneHorzAttr : Option String
  attrAvailable : Bool
  failCount : Nat
  nextRetry : Nat
deriving DecidableEq, Repr

/-- The state right after LocalDaikinClimate.__init__ (backoff clear,
mode off, default 26 degree target). -/
def initState : ClimState where
  hvacMode := .off
  fanMode := .auto
  swingMode := .off
  targetTemperature := some 26
  currentTemperature := none
  currentHumidity := none
  outsideTemperature := none
  energyToday := none
  runtimeToday := none
  coolHumidityEnabled := none
  coolHumidityTarget := none
  vaneVertHex := none
  vaneHorzHex := none
  vaneVertAttr := none
  vaneHorzAttr := none
  attrAvailable := true
  failCount := 0
  nextRetry := 0

/-- min_temp instance value. -/
def minTemp : ℚ := 10

/-- max_temp instance value. -/
def maxTemp : ℚ := 30

/-- The shared except branch of update and update_attribute: mark
unavailable, bump the failure count capped at the table length, and
schedule the next retry. -/
def updateFail (s : ClimState) (now : Nat) : ClimState :=
  let fc := min (s.failCount + 1) BACKOFFS.length
  { s with attrAvailable := false, failCount := fc,
           nextRetry := now + BACKOFFS.getD (fc - 1) 0 }

/-- Outcome of one _http call: a raised transport error (connection,
timeout, non-2xx or JSON failure) or a parsed responses list. -/
inductive HttpResult where
  | fail
  | ok (data : RespData)

/-- hex_to_temp applied to the raw result of find_value_by_pn: anything but
a found string pv raises (modelled none). -/
def jhexToTemp (v : Option (Option JVal)) (divisor : Nat) : Option ℚ :=
  match v with
  | some (some (JVal.s str)) => hex_to_temp str divisor
  | _ => none

/-- The mode-dependent target-temperature candidate slots tried in order. -/
def targetTempCandidates : HVACMode → List String
  | .cool => ["p_02", "p_04", "p_03"]
  | .heat => ["p_03", "p_02", "p_04"]
  | .auto => ["p_02", "p_03", "p_04"]
  | _ => []

/-- One candidate probe of the target temperature: a raised lookup, a
missing pv, or an unparsable value all yield none (the loop continues). -/
def tryTargetTemp (data : RespData) (attr : String) : Option ℚ :=
  match find_value_by_pn data adrStatus ["dgc_status", "e_1002", "e_3001", attr] with
  | none => none
  | some none => none
  | some (some v) =>
    match v with
    | JVal.s str => hex_to_temp str 2
    | _ => none

/-- The candidate loop: first successful parse wins. -/
def targetTempLoop (data : RespData) : List String → Option ℚ
  | [] => none
  | a :: rest =>
    match tryTargetTemp data a with
    | some t => some t
    | none => targetTempLoop data rest

/-- Target-temperature extraction of the poll cycle: try the mode's
candidate slots in order, keep the first parsed value, and retain the
previous target when every candidate fails. -/
def extract_target_temperature (data : RespData) (mode : HVACMode)
    (prev : Option ℚ) : Option ℚ :=
  match targetTempLoop data (targetTempCandidates mode) with
  | some t => some t
  | none => prev

/-- The vane-reading try block: the vertical slot is read first; a raise
there leaves both unset, a raise on the horizontal slot keeps the
vertical value. -/
def readVanes (data : RespData) (vAttr hAttr : Option String) :
    Option JVal × Option JVal :=
  match vAttr with
  | some a =>
    match find_value_by_pn data adrStatus ["dgc_status", "e_1002", "e_3001", a] with
    | none => (none, none)
    | some vv =>
      match hAttr with
      | some hb =>
        match find_value_by_pn data adrStatus ["dgc_status", "e_1002", "e_3001", hb] with
        | none => (vv, none)
        | some hh => (vv, hh)
      | none => (vv, none)
  | none =>
    match hAttr with
    | some hb =>
      match find_value_by_pn data adrStatus ["dgc_status", "e_1002", "e_3001", hb] with
      | none => (none, none)
      | some hh => (none, hh)
    | none => (none, none)

/-- The tail of the poll cycle after the fan-speed read: every remaining
extraction is wrapped in its own try, so no failure escapes; ends by
marking available and clearing the backoff. -/
def updateTail (s : ClimState) (data : RespData) : ClimState :=
  let hum : Option Nat :=
    match find_value_by_pn data adrStatus ["dgc_status", "e_1002", "e_A00B", "p_02"] with
    | some (some (JVal.s str)) => parseHexAll str
    | _ => none
  let va := swingAttrNames s.hvacMode
  let vh : Option JVal × Option JVal :=
    if s.hvacMode ≠ HVACMode.off then readVanes data va.1 va.2 else (none, none)
  let von := vh.1 = some (JVal.s "0F0000")
  let hon := vh.2 = some (JVal.s "0F0000")
  let sw : SwingMode :=
    if s.hvacMode ≠ HVACMode.off then
      if von ∧ hon then .both
      else if von then .vertical
      else if hon then .horizontal
      else .off
    else .off
  let energy : Option ℚ :=
    match find_value_by_pn data adrWeek ["week_power", "datas"] with
    | none => none
    | some pv =>
      match pv with
      | some (JVal.arr l) =>
        match l.getLast? with
        | some e => some e
        | none => s.energyToday
      | _ => s.energyToday
  let runtime : Option JVal :=
    match find_value_by_pn data adrWeek ["week_power", "today_runtime"] with
    | none => none
    | some pv => pv
  let che : Option Bool :=
    match find_value_by_pn data adrStatus ["dgc_status", "e_1002", "e_3003", "p_2C"] with
    | none => none
    | some pv => some (decide (pv = some (JVal.s "01")))
  let cht : Option Nat :=
    match find_value_by_pn data adrStatus ["dgc_status", "e_1002", "e_3003", "p_1A"] with
    | none => none
    | some pv =>
      match pv with
      | none => none
      | some (JVal.s str) => parseHexAll str
      | some _ => none
  { s with
    currentHumidity := hum,
    vaneVertAttr := va.1, vaneHorzAttr := va.2,
    vaneVertHex := vh.1, vaneHorzHex := vh.2,
    swingMode := sw,
    energyToday := energy,
    runtimeToday := runtime,
    coolHumidityEnabled := che,
    coolHumidityTarget := cht,
    attrAvailable := true, failCount := 0, nextRetry := 0 }

/-- Fan-speed extraction stage: only modes with a fan slot read it, a raise
there aborts the cycle, otherwise the reverse map with Auto fallback. -/
def updateFan (s : ClimState) (now : Nat) (data : RespData) : ClimState :=
  match fanSpeedAttrName s.hvacMode with
  | some attr =>
    match find_value_by_pn data adrStatus ["dgc_status", "e_1002", "e_3001", attr] with
    | none => updateFail s now
    | some hv => updateTail { s with fanMode := fanFromHex hv } data
  | none => updateTail { s with fanMode := HAFanMode.auto } data

/-- Indoor temperature stage (divisor 1, distinct from the divisor 2 used
elsewhere); a raise aborts the cycle from the state reached so far. -/
def updateCurrent (s : ClimState) (now : Nat) (data : RespData) : ClimState :=
  match jhexToTemp
      (find_value_by_pn data adrStatus ["dgc_status", "e_1002", "e_A00B", "p_01"]) 1 with
  | none => updateFail s now
  | some t => updateFan { s with currentTemperature := some t } now data

/-- Target-temperature stage: the target is written before the indoor
read, so a later raise keeps the new target. -/
def updateTarget (s : ClimState) (now : Nat) (data : RespData) : ClimState :=
  updateCurrent { s with targetTemperature :=
    extract_target_temperature data s.hvacMode s.targetTemperature } now data

/-- Outdoor temperature stage (unconditional, divisor 2). -/
def updateOutside (s : ClimState) (now : Nat) (data : RespData) : ClimState :=
  match jhexToTemp
      (find_value_by_pn data adr2Status ["dgc_status", "e_1003", "e_A00D", "p_01"]) 2 with
  | none => updateFail s now
  | some t => updateTarget { s with outsideTemperature := some t } now data

/-- LocalDaikinClimate.update: honor the backoff gate, then run the poll
body; the outer except turns any raise into unavailable plus backoff,
keeping whatever fields were already assigned. -/
def update (s : ClimState) (now : Nat) (res : HttpResult) : ClimState :=
  if now < s.nextRetry then s
  else
    match res with
    | .fail => updateFail s now
    | .ok data =>
      match find_value_by_pn data adrStatus ["dgc_status", "e_1002", "e_A002", "p_01"] with
      | none => updateFail s now
      | some pv01 =>
        if pv01 = some (JVal.s "00") then
          updateOutside { s with hvacMode := .off } now data
        else
          match find_value_by_pn data adrStatus ["dgc_status", "e_1002", "e_3001", "p_01"] with
          | none => updateFail s now
          | some mh => updateOutside { s with hvacMode := modeFromHex mh } now data

/-- Python round(): round half to even on floats. -/
def pyRound (q : ℚ) : ℤ :=
  if q - ⌊q⌋ = 1 / 2 then (if 2 ∣ ⌊q⌋ then ⌊q⌋ else ⌊q⌋ + 1) else round q

/-- Uppercase hex digit character, as produced by the %02X format. -/
def hexChar (d : Nat) : Char :=
  if d < 10 then Char.ofNat (48 + d) else Char.ofNat (55 + d)

/-- Two-digit uppercase hex of a byte (%02X). -/
def toHex2 (n : Nat) : String :=
  String.mk [hexChar (n / 16), hexChar (n % 16)]

/-- The temperature-to-wire conversion of set_temperature: clamp to the
instance min and max, double, Python-round, mask to 8 bits, format as two
uppercase hex digits. -/
def temperature_to_hex (t : ℚ) : String :=
  let v := max minTemp (min maxTemp t)
  toHex2 ((pyRound (v * 2) % 256).toNat)

/-- strip_p2d of update_attribute: drop every p_2D child at every level
(and force the pch key to exist, as the Python assignment does). -/
def stripP2d : PNode → PNode
  | PNode.mk pn pv pch =>
    PNode.mk pn pv (some ((((pch.getD []).filter (fun c => !(c.pn == "p_2D"))).attach).map
      (fun c => stripP2d c.1)))
termination_by n => sizeOf n
decreasing_by
  have h1 : c.1 ∈ (pch.getD []) := (List.mem_filter.mp c.2).1
  have h2 := List.sizeOf_lt_of_mem h1
  cases pch with
  | none => simp at h1
  | some l => simp at h2 ⊢; omega

/-- keep_only_p2d of update_attribute: keep only p_2D children at every
level. -/
def keepOnlyP2d : PNode → PNode
  | PNode.mk pn pv pch =>
    PNode.mk pn pv (some ((((pch.getD []).filter (fun c => c.pn == "p_2D")).attach).map
      (fun c => keepOnlyP2d c.1)))
termination_by n => sizeOf n
decreasing_by
  have h1 : c.1 ∈ (pch.getD []) := (List.mem_filter.mp c.2).1
  have h2 := List.sizeOf_lt_of_mem h1
  cases pch with
  | none => simp at h1
  | some l => simp at h2 ⊢; omega

/-- The pn values of all strict descendants of a node, as visited by the
needs-split scan. -/
def descPns : PNode → List String
  | PNode.mk _pn _pv pch =>
    ((pch.getD []).attach.map (fun c => c.1.pn :: descPns c.1)).flatten
termination_by n => sizeOf n
decreasing_by
  have h2 := List.sizeOf_lt_of_mem c.2
  cases pch with
  | none => have h1 := c.2; simp at h1
  | some l => simp at h2 ⊢; omega

/-- Python str.startswith("p_"). -/
def startsP (s : String) : Bool :=
  match s.data with
  | 'p' :: '_' :: _ => true
  | _ => false

/-- The per-request needs-split scan: some descendant is the p_2D commit
marker and some other descendant is a p_ attribute. -/
def needsSplitReq (r : RequestObj) : Bool :=
  let pns := descPns r.pc
  pns.contains "p_2D" && pns.any (fun p => startsP p && !(p == "p_2D"))

/-- needs_split over all requests of the payload. -/
def needs_split (reqs : Payload) : Bool :=
  reqs.any needsSplitReq

/-- The first sub-request of the compatibility split: same op and to,
deep copy of pc with p_2D removed. -/
def splitFirstPayload (reqs : Payload) : Payload :=
  reqs.map (fun r => RequestObj.mk r.op r.dest (stripP2d r.pc))

/-- The second sub-request of the compatibility split: only p_2D kept. -/
def splitSecondPayload (reqs : Payload) : Payload :=
  reqs.map (fun r => RequestObj.mk r.op r.dest (keepOnlyP2d r.pc))

/-- Observable network events of a command dispatch: an HTTP POST of a
payload, or an invocation of the refresh poll (self.update). -/
inductive Ev where
  | post (p : Payload)
  | poll

/-- Environment of one update_attribute call: the outcome of the write
POST, the monotonic time read in its except branch, the transport outcomes
of the two split posts, and the time and transport outcome seen by the
refresh poll. -/
structure UAEnv where
  writeResult : HttpResult
  failNow : Nat
  split1Ok : Bool
  split2Ok : Bool
  pollNow : Nat
  pollResult : HttpResult

/-- LocalDaikinClimate.update_attribute: POST the request; on a recognized
success code refresh once via update; on an unrecognized code either run
the two-phase commit split (and then refresh) or log and stop; on a
transport failure apply the shared backoff. -/
def update_attribute (s : ClimState) (req : Payload) (env : UAEnv) :
    ClimState × List Ev :=
  match env.writeResult with
  | .fail => (updateFail s env.failNow, [Ev.post req])
  | .ok resp =>
    match resp with
    | [] => (updateFail s env.failNow, [Ev.post req])
    | r0 :: _ =>
      if r0.rsc = some 2000 ∨ r0.rsc = some 2004 then
        (update s env.pollNow env.pollResult, [Ev.post req, Ev.poll])
      else if needs_split req then
        if env.split1Ok then
          if env.split2Ok then
            (update s env.pollNow env.pollResult,
             [Ev.post req, Ev.post (splitFirstPayload req),
              Ev.post (splitSecondPayload req), Ev.poll])
          else
            (s, [Ev.post req, Ev.post (splitFirstPayload req),
                 Ev.post (splitSecondPayload req)])
        else (s, [Ev.post req, Ev.post (splitFirstPayload req)])
      else (s, [Ev.post req])

/-- LocalDaikinClimate.set_hvac_mode: Off is a single power-off write; any
other known mode is a power-on write followed by a mode write with the
p_2D commit marker, each dispatched through update_attribute. -/
def set_hvac_mode (s : ClimState) (mode : HVACMode) (env1 env2 : UAEnv) :
    ClimState × List Ev :=
  if mode = HVACMode.off then
    update_attribute s
      (serialize [DaikinAttribute.mk "p_01" "00" ["e_1002", "e_A002"] adrStatus]) env1
  else
    match modeToHex mode with
    | none => (s, [])
    | some mh =>
      let r1 := update_attribute s
        (serialize [DaikinAttribute.mk "p_01" "01" ["e_1002", "e_A002"] adrStatus]) env1
      let r2 := update_attribute r1.1
        (serialize [DaikinAttribute.mk "p_01" mh ["e_1002", "e_3001"] adrStatus,
                    DaikinAttribute.mk "p_2D" "02" ["e_1002", "e_3003"] adrStatus]) env2
      (r2.1, r1.2 ++ r2.2)

/-- LocalDaikinClimate.set_temperature: no temperature argument or a mode
without a target-temperature slot returns before building any request;
otherwise the commit marker and the converted temperature are written to
the mode's slot. -/
def set_temperature (s : ClimState) (temp : Option ℚ) (env : UAEnv) :
    ClimState × List Ev :=
  match temp with
  | none => (s, [])
  | some t =>
    match hvacToTempHex s.hvacMode with
    | none => (s, [])
    | some attr =>
      update_attribute s
        (serialize [DaikinAttribute.mk "p_2D" "02" ["e_1002", "e_3003"] adrStatus,
                    DaikinAttribute.mk attr (temperature_to_hex t) ["e_1002", "e_3001"] adrStatus])
        env

/-- The extra_state_attributes dict of the climate entity, as a key lookup
(absent keys and Python None values both yield none; the constant ip and
name entries are irrelevant here and omitted). -/
def extra_state_attributes (s : ClimState) (key : String) : Option JVal :=
  if key = "outside_temperature" then s.outsideTemperature.map JVal.n
  else if key = "current_humidity" then s.currentHumidity.map (fun h => JVal.n (h : ℚ))
  else if key = "energy_today" then s.energyToday.map JVal.n
  else if key = "runtime_today" then s.runtimeToday
  else if key = "cool_humidity_enabled" then s.coolHumidityEnabled.map JVal.b
  else if key = "cool_humidity_target" then s.coolHumidityTarget.map (fun h => JVal.n (h : ℚ))
  else if s.vaneVertAttr = some key ∧ s.vaneVertHex ≠ none then s.vaneVertHex
  else if s.vaneHorzAttr = some key ∧ s.vaneHorzHex ≠ none then s.vaneHorzHex
  else if key = "supports_vertical_vane" then some (JVal.b (decide (s.vaneVertAttr ≠ none)))
  else if key = "supports_horizontal_vane" then some (JVal.b (decide (s.vaneHorzAttr ≠ none)))
  else none

/-- The zero sentinel of the energy sensors: None, 0 and the string 0 all
display as unknown. -/
def sensorZeroNull (v : Option JVal) : Option JVal :=
  if v = none ∨ v = some (JVal.n 0) ∨ v = some (JVal.s "0") then none else v

/-- DaikinEnergyTodaySensor reading the climate attributes. -/
def energy_today_sensor (s : ClimState) : Option JVal :=
  sensorZeroNull (extra_state_attributes s "energy_today")

/-- DaikinEnergyYesterdaySensor reading the climate attributes. -/
def energy_yesterday_sensor (s : ClimState) : Option JVal :=
  sensorZeroNull (extra_state_attributes s "energy_yesterday")

/-- DaikinEnergyWeekTotalSensor reading the climate attributes. -/
def energy_week_total_sensor (s : ClimState) : Option JVal :=
  sensorZeroNull (extra_state_attributes s "energy_week_total")

/-- Some level of the key walk has no matching child: either the current
level lacks a node with the key name, or the walk descends into the first
match and fails deeper. -/
def walkMissing : List RNode → List String → Prop
  | _, [] => False
  | cur, key :: ks =>
    (∀ c ∈ cur, c.pn ≠ key) ∨
    (∃ nd, cur.find? (fun pc => pc.pn == key) = some nd ∧ walkMissing nd.pch ks)

/-- Run a sequence of polls that all fail at the transport, at the given
monotonic times. -/
def run_failures (s : ClimState) : List Nat → ClimState
  | [] => s
  | t :: ts => run_failures (update s t HttpResult.fail) ts

/-- Every failing poll of the sequence happens at or after the retry gate
then in force (so none of them is swallowed by the backoff window). -/
def failure_times_ok (s : ClimState) : List Nat → Bool
  | [] => true
  | t :: ts => decide (s.nextRetry ≤ t) && failure_times_ok (update s t HttpResult.fail) ts


/-- The two observable outcomes of an ungated poll in terms of the
availability flag and the backoff bookkeeping: a success resets both, a
failure (at whatever point of the body) marks unavailable, bumps the
count and schedules the retry. -/
def pollOutcome (s : ClimState) (now : Nat) (r : ClimState) : Prop :=
  (r.attrAvailable = true ∧ r.failCount = 0 ∧ r.nextRetry = 0) ∨
  (r.attrAvailable = false ∧ r.failCount = min (s.failCount + 1) 5 ∧
   r.nextRetry = now + BACKOFFS.getD (min (s.failCount + 1) 5 - 1) 0)

/-- A fixed command environment used by concrete instances. -/
def cEnvFail : UAEnv :=
  UAEnv.mk HttpResult.fail 0 true true 0 HttpResult.fail

/-- The write POST of an update_attribute call was acknowledged with one of
the two recognized success codes. -/
def wroteOk (env : UAEnv) : Bool :=
  match env.writeResult with
  | HttpResult.ok (r0 :: _) =>
    decide (r0.rsc = some 2000) || decide (r0.rsc = some 2004)
  | _ => false

/-- The serialized power-on request of set_hvac_mode. -/
def powerOnPayload : Payload :=
  [RequestObj.mk 3 adrStatus (PNode.mk "dgc_status" none (some [PNode.mk "e_1002" none
    (some [PNode.mk "e_A002" none (some [PNode.mk "p_01" (some "01") none])])]))]

/-- The serialized set-mode-Cool request of set_hvac_mode: the mode hex in
e_1002/e_3001 together with the p_2D commit marker in e_1002/e_3003. -/
def coolModePayload : Payload :=
  [RequestObj.mk 3 adrStatus (PNode.mk "dgc_status" none (some [PNode.mk "e_1002" none
    (some [PNode.mk "e_3001" none (some [PNode.mk "p_01" (some "0200") none]),
           PNode.mk "e_3003" none (some [PNode.mk "p_2D" (some "02") none])])]))]

/-- A command environment whose write is acknowledged with code 2000 and
whose refresh poll hits a transport failure. -/
def cEnvOk : UAEnv :=
  UAEnv.mk (HttpResult.ok [RespBlock.mk adrStatus (some 2000)
    (RNode.mk "dgc_status" none [])]) 0 true true 0 HttpResult.fail

/-- A snapshot currently cooling with fan level 3 and vertical swing. -/
def sCool : ClimState :=
  { initState with
    hvacMode := HVACMode.cool
    fanMode := HAFanMode.level3
    swingMode := SwingMode.vertical }

/-- A response whose power flag reads off but which is missing every other
required field (in particular the outdoor temperature). -/
def dBad : RespData :=
  [RespBlock.mk adrStatus (some 2000) (RNode.mk "dgc_status" none [
    RNode.mk "e_1002" none [
      RNode.mk "e_A002" none [RNode.mk "p_01" (some (JVal.s "00")) []]]])]

/-- A complete powered-off poll response: power flag 00, indoor and outdoor
temperatures, humidity, and a weekly energy series with real samples whose
last entry is 4. -/
def dFull : RespData :=
  [RespBlock.mk adrStatus (some 2000) (RNode.mk "dgc_status" none [
    RNode.mk "e_1002" none [
      RNode.mk "e_A002" none [RNode.mk "p_01" (some (JVal.s "00")) []],
      RNode.mk "e_A00B" none [RNode.mk "p_01" (some (JVal.s "19")) [],
                              RNode.mk "p_02" (some (JVal.s "37")) []],
      RNode.mk "e_3001" none [RNode.mk "p_01" (some (JVal.s "0200")) [],
                              RNode.mk "p_09" (some (JVal.s "0700")) []]]]),
   RespBlock.mk adr2Status (some 2000) (RNode.mk "dgc_status" none [
     RNode.mk "e_1003" none [RNode.mk "e_A00D" none
       [RNode.mk "p_01" (some (JVal.s "34")) []]]]),
   RespBlock.mk adrWeek (some 2000) (RNode.mk "week_power" none [
     RNode.mk "datas" (some (JVal.arr [1, 2, 3, 4, 5, 6, 4])) [],
     RNode.mk "today_runtime" (some (JVal.n 120)) []])]

/-- The same complete response with the all-zero weekly energy series. -/
def dZero : RespData :=
  [RespBlock.mk adrStatus (some 2000) (RNode.mk "dgc_status" none [
    RNode.mk "e_1002" none [
      RNode.mk "e_A002" none [RNode.mk "p_01" (some (JVal.s "00")) []],
      RNode.mk "e_A00B" none [RNode.mk "p_01" (some (JVal.s "19")) [],
                              RNode.mk "p_02" (some (JVal.s "37")) []],
      RNode.mk "e_3001" none [RNode.mk "p_01" (some (JVal.s "0200")) [],
                              RNode.mk "p_09" (some (JVal.s "0700")) []]]]),
   RespBlock.mk adr2Status (some 2000) (RNode.mk "dgc_status" none [
     RNode.mk "e_1003" none [RNode.mk "e_A00D" none
       [RNode.mk "p_01" (some (JVal.s "34")) []]]]),
   RespBlock.mk adrWeek (some 2000) (RNode.mk "week_power" none [
     RNode.mk "datas" (some (JVal.arr [0, 0, 0, 0, 0, 0, 0])) [],
     RNode.mk "today_runtime" (some (JVal.n 120)) []])]

/-- A demonstration write list: a mode write, a commit marker, and a second
mode write to the same destination, path and name. -/
def demoAttrs : List DaikinAttribute :=
  [DaikinAttribute.mk "p_01" "0200" ["e_1002", "e_3001"] adrStatus,
   DaikinAttribute.mk "p_2D" "02" ["e_1002", "e_3003"] adrStatus,
   DaikinAttribute.mk "p_01" "0300" ["e_1002", "e_3001"] adrStatus]

/-- The candidate loop computes the head of the successful parses. -/
theorem targetTempLoop_filterMap (data : RespData) (l : List String) :
    targetTempLoop data l = (l.filterMap (tryTargetTemp data)).head? := by
  induction l with
  | nil => rfl
  | cons a rest ih =>
    simp only [targetTempLoop, List.filterMap_cons]
    cases h : tryTargetTemp data a with
    | some t => simp
    | none => simpa using ih

/-- C5: During a poll in Cool mode, the target temperature is extracted by
trying slots p_02, then p_04, then p_03 in that order, keeping the first
successfully parsed value; when every candidate fails the previous target
temperature is retained instead of being set to null. -/
theorem c5_cool_target_candidates (data : RespData) (prev : Option ℚ) :
    extract_target_temperature data HVACMode.cool prev =
      match (["p_02", "p_04", "p_03"].filterMap (tryTargetTemp data)).head? with
      | some v => some v
      | none => prev := by
  simp only [extract_target_temperature, targetTempCandidates, targetTempLoop_filterMap]

/-- C10: setTemperature in a mode with no target-temperature slot, or with
no temperature argument, sends no device write and leaves the snapshot
unchanged. -/
theorem c10_set_temperature_noop (s : ClimState) (temp : Option ℚ) (env : UAEnv)
    (h : s.hvacMode = HVACMode.dry ∨ s.hvacMode = HVACMode.fanOnly ∨
         s.hvacMode = HVACMode.off ∨ temp = none) :
    set_temperature s temp env = (s, []) := by
  cases temp with
  | none => rfl
  | some t =>
    rcases h with h | h | h | h
    · simp [set_temperature, h, hvacToTempHex]
    · simp [set_temperature, h, hvacToTempHex]
    · simp [set_temperature, h, hvacToTempHex]
    · simp at h

/-- Witness for C10 at a concrete Dry-mode state. -/
theorem c10_witness :
    set_temperature { initState with hvacMode := HVACMode.dry } (some 25) cEnvFail =
      ({ initState with hvacMode := HVACMode.dry }, []) :=
  c10_set_temperature_noop _ _ _ (Or.inl rfl)

/-- Python round is within one half of its argument. -/
theorem abs_pyRound_sub (q : ℚ) : |(pyRound q : ℚ) - q| ≤ 1 / 2 := by
  have habs12 : |(1 / 2 : ℚ)| = 1 / 2 := abs_of_pos (by norm_num)
  unfold pyRound
  split
  · rename_i hhalf
    split
    · rw [abs_sub_comm]
      have h : q - (⌊q⌋ : ℚ) = 1 / 2 := hhalf
      rw [h, habs12]
    · have h : ((⌊q⌋ : ℚ) + 1) - q = 1 / 2 := by
        have h2 : q - (⌊q⌋ : ℚ) = 1 / 2 := hhalf
        linarith
      push_cast
      rw [h, habs12]
  · rw [abs_sub_comm]
    exact abs_sub_round q

/-- Each hex digit character parses back to its value. -/
theorem hexDigitVal_hexChar : ∀ d : Nat, d < 16 → hexDigitVal (hexChar d) = some d := by
  decide

/-- Round trip of the two-digit hex format through the hex parser. -/
theorem parseHex2_toHex2 (m : Nat) (hm : m < 256) : parseHex2 (toHex2 m) = some m := by
  have h1 : m / 16 < 16 := by omega
  have h2 : m % 16 < 16 := by omega
  have e1 := hexDigitVal_hexChar _ h1
  have e2 := hexDigitVal_hexChar _ h2
  simp only [parseHex2, toHex2]
  show parseHexNum [hexChar (m / 16), hexChar (m % 16)] = some m
  simp only [parseHexNum, parseHexAux, e1, e2]
  congr 1
  omega

/-- C7: for every x in [-40, 60], converting a temperature to hex as
set_temperature does (clamp to the min and max, double, Python-round, mask
to 8 bits) and reading it back through hex_to_temp with divisor 2 yields
the clamp of x to [min_temp, max_temp] to within half a degree. -/
theorem c7_temperature_roundtrip (x : ℚ) (hx1 : -40 ≤ x) (hx2 : x ≤ 60) :
    ∃ t, hex_to_temp (temperature_to_hex x) 2 = some t ∧
      |t - max minTemp (min maxTemp x)| ≤ 1 / 2 := by
  obtain ⟨c, hc⟩ : ∃ c, c = max minTemp (min maxTemp x) := ⟨_, rfl⟩
  have hc1 : (10 : ℚ) ≤ c := by
    rw [hc]
    simp [minTemp, le_max_iff]
  have hc2 : c ≤ 30 := by
    rw [hc]
    exact max_le (by norm_num [minTemp]) ((min_le_left _ _).trans (by norm_num [maxTemp]))
  obtain ⟨n, hn⟩ : ∃ n, n = pyRound (c * 2) := ⟨_, rfl⟩
  have habs : |(n : ℚ) - c * 2| ≤ 1 / 2 := by
    rw [hn]
    exact abs_pyRound_sub (c * 2)
  rw [abs_le] at habs
  have hn1 : 20 ≤ n := by
    by_contra hcon
    have h19 : (n : ℚ) ≤ 19 := by exact_mod_cast (by omega : n ≤ 19)
    linarith [habs.1]
  have hn2 : n ≤ 60 := by
    by_contra hcon
    have h61 : (61 : ℚ) ≤ (n : ℚ) := by exact_mod_cast (by omega : (61 : ℤ) ≤ n)
    linarith [habs.2]
  have hemod : n % 256 = n := by omega
  have htoNat : ((n.toNat : ℤ)) = n := by omega
  have hlt : n.toNat < 256 := by omega
  have hparse : parseHex2 (temperature_to_hex x) = some n.toNat := by
    unfold temperature_to_hex
    rw [← hc]
    show parseHex2 (toHex2 ((pyRound (c * 2) % 256).toNat)) = some n.toNat
    rw [← hn, hemod]
    exact parseHex2_toHex2 _ hlt
  refine ⟨((n : ℚ)) / 2, ?_, ?_⟩
  · unfold hex_to_temp
    rw [hparse]
    have hnot : ¬ 128 ≤ n.toNat := by omega
    rw [Option.map_some']
    rw [if_neg hnot, htoNat]
    norm_num
  · rw [← hc, abs_le]
    constructor <;> linarith [habs.1, habs.2]

/-- Witness for C7 at the concrete temperature 22.3. -/
theorem c7_witness :
    (-40 ≤ (223 / 10 : ℚ) ∧ (223 / 10 : ℚ) ≤ 60) ∧
    (∃ t, hex_to_temp (temperature_to_hex (223 / 10)) 2 = some t ∧
      |t - max minTemp (min maxTemp (223 / 10))| ≤ 1 / 2) :=
  ⟨⟨by norm_num, by norm_num⟩,
   c7_temperature_roundtrip (223 / 10) (by norm_num) (by norm_num)⟩

/-- Unfolding of walkMissing at a cons key list. -/
theorem walkMissing_cons (cur : List RNode) (key : String) (ks : List String) :
    walkMissing cur (key :: ks) ↔
      (∀ c ∈ cur, c.pn ≠ key) ∨
      (∃ nd, cur.find? (fun pc => pc.pn == key) = some nd ∧ walkMissing nd.pch ks) :=
  Iff.rfl

/-- The walk raises exactly when some level has no matching child. -/
theorem findAux_none_iff :
    ∀ keys : List String, keys ≠ [] → ∀ cur,
      (findAux cur keys = none ↔ walkMissing cur keys) := by
  intro keys
  induction keys with
  | nil => intro h; exact absurd rfl h
  | cons key ks ih =>
    intro _ cur
    rw [walkMissing_cons]
    cases ks with
    | nil =>
      show cur.find? (fun pc => pc.pn == key) = none ↔ _
      constructor
      · intro h
        left
        intro c hc
        simpa using List.find?_eq_none.mp h c hc
      · rintro (h | ⟨nd, _, hmiss⟩)
        · exact List.find?_eq_none.mpr (fun c hc => by simpa using h c hc)
        · exact absurd hmiss (by simp [walkMissing])
    | cons k2 ks2 =>
      show (match cur.find? (fun pc => pc.pn == key) with
            | some nd => findAux nd.pch (k2 :: ks2)
            | none => none) = none ↔ _
      cases hf : cur.find? (fun pc => pc.pn == key) with
      | none =>
        constructor
        · intro _
          left
          intro c hc
          simpa using List.find?_eq_none.mp hf c hc
        · intro _
          rfl
      | some nd =>
        constructor
        · intro h
          exact Or.inr ⟨nd, rfl, (ih (by simp) nd.pch).mp h⟩
        · rintro (h | ⟨nd2, hnd2, hmiss⟩)
          · have h1 := List.find?_some hf
            have h2 := List.mem_of_find?_eq_some hf
            exact absurd (by simpa using h1) (h nd h2)
          · injection hnd2 with e
            subst e
            exact (ih (by simp) nd.pch).mpr hmiss

/-- C8: for every response payload and non-empty key list, the pure lookup
find_value_by_pn raises KeyNotFound (models as none) exactly when some
level of the key walk has no child whose name matches. -/
theorem c8_key_not_found_iff (data : RespData) (fr : String) (keys : List String)
    (h : keys ≠ []) :
    (find_value_by_pn data fr keys = none ↔
      walkMissing ((data.filter (fun b => b.fr == fr)).map (fun b => b.pc)) keys) := by
  unfold find_value_by_pn
  rw [Option.map_eq_none']
  exact findAux_none_iff keys h _

/-- Witness for C8 on an empty response with one key. -/
theorem c8_witness :
    ((["dgc_status"] : List String) ≠ []) ∧
    (find_value_by_pn [] "x" ["dgc_status"] = none ↔
      walkMissing (([] : RespData).filter (fun b => b.fr == "x") |>.map (fun b => b.pc))
        ["dgc_status"]) :=
  ⟨by simp, c8_key_not_found_iff [] "x" ["dgc_status"] (by simp)⟩

/-- An ungated failing poll is exactly the shared backoff branch. -/
theorem update_fail_eq (s : ClimState) (now : Nat) (h : s.nextRetry ≤ now) :
    update s now HttpResult.fail = updateFail s now := by
  simp [update, Nat.not_lt.mpr h]

/-- Generalized failure-run accounting: the failure count accumulates,
saturating at 5, and the retry gate becomes the last failure time plus the
backoff entry of the saturated count. -/
theorem run_failures_general :
    ∀ (ts : List Nat) (s : ClimState), s.failCount ≤ 5 →
      failure_times_ok s ts = true →
      (run_failures s ts).failCount = min (s.failCount + ts.length) 5 ∧
      (ts = [] → run_failures s ts = s) ∧
      (∀ tl, ts.getLast? = some tl →
        (run_failures s ts).nextRetry =
          tl + BACKOFFS.getD (min (s.failCount + ts.length) 5 - 1) 0) := by
  intro ts
  induction ts with
  | nil =>
    intro s hle _
    refine ⟨?_, fun _ => rfl, fun tl htl => by simp at htl⟩
    show s.failCount = min (s.failCount + ([] : List Nat).length) 5
    simp only [List.length_nil]
    omega
  | cons t ts ih =>
    intro s hle hok
    rw [failure_times_ok, Bool.and_eq_true] at hok
    obtain ⟨hg, hok2⟩ := hok
    have hgate : s.nextRetry ≤ t := by simpa using hg
    have hstep : update s t HttpResult.fail = updateFail s t := update_fail_eq s t hgate
    rw [hstep] at hok2
    have hrun : run_failures s (t :: ts) = run_failures (updateFail s t) ts := by
      rw [run_failures, hstep]
    have hfc : (updateFail s t).failCount = min (s.failCount + 1) 5 := rfl
    have hfc5 : (updateFail s t).failCount ≤ 5 := by rw [hfc]; omega
    obtain ⟨ihfc, ihnil, ihlast⟩ := ih (updateFail s t) hfc5 hok2
    refine ⟨?_, fun hcontra => absurd hcontra (by simp), ?_⟩
    · rw [hrun, ihfc, hfc]
      simp only [List.length_cons]
      omega
    · intro tl htl
      cases ts with
      | nil =>
        have htt : tl = t := by simpa using htl.symm
        subst htt
        rw [hrun, ihnil rfl]
        show tl + BACKOFFS.getD (min (s.failCount + 1) BACKOFFS.length - 1) 0 = _
        simp only [List.length_cons, List.length_nil]
        rfl
      | cons t2 ts2 =>
        have htl2 : (t2 :: ts2).getLast? = some tl := by simpa using htl
        have hidx : min ((updateFail s t).failCount + (t2 :: ts2).length) 5 - 1 =
            min (s.failCount + (t :: t2 :: ts2).length) 5 - 1 := by
          rw [hfc]
          simp only [List.length_cons]
          omega
        rw [hrun, ihlast tl htl2, hidx]

/-- The backoff branch realizes the failure outcome. -/
theorem pollOutcome_updateFail (s s' : ClimState) (now : Nat)
    (hfc : s'.failCount = s.failCount) : pollOutcome s now (updateFail s' now) := by
  right
  refine ⟨rfl, ?_, ?_⟩
  · show min (s'.failCount + 1) BACKOFFS.length = _
    rw [hfc]
    rfl
  · show now + BACKOFFS.getD (min (s'.failCount + 1) BACKOFFS.length - 1) 0 = _
    rw [hfc]
    rfl

/-- The raise-free tail of the poll realizes the success outcome. -/
theorem pollOutcome_updateTail (s s' : ClimState) (now : Nat) (data : RespData) :
    pollOutcome s now (updateTail s' data) :=
  Or.inl ⟨rfl, rfl, rfl⟩

/-- The fan stage ends in one of the two poll outcomes. -/
theorem pollOutcome_updateFan (s s' : ClimState) (now : Nat) (data : RespData)
    (hfc : s'.failCount = s.failCount) : pollOutcome s now (updateFan s' now data) := by
  unfold updateFan
  split
  · split
    · exact pollOutcome_updateFail s s' now hfc
    · exact pollOutcome_updateTail s _ now _
  · exact pollOutcome_updateTail s _ now _

/-- The indoor-temperature stage ends in one of the two poll outcomes. -/
theorem pollOutcome_updateCurrent (s s' : ClimState) (now : Nat) (data : RespData)
    (hfc : s'.failCount = s.failCount) : pollOutcome s now (updateCurrent s' now data) := by
  unfold updateCurrent
  split
  · exact pollOutcome_updateFail s s' now hfc
  · exact pollOutcome_updateFan s _ now _ hfc

/-- The target-temperature stage ends in one of the two poll outcomes. -/
theorem pollOutcome_updateTarget (s s' : ClimState) (now : Nat) (data : RespData)
    (hfc : s'.failCount = s.failCount) : pollOutcome s now (updateTarget s' now data) := by
  unfold updateTarget
  exact pollOutcome_updateCurrent s _ now _ hfc

/-- The outdoor-temperature stage ends in one of the two poll outcomes. -/
theorem pollOutcome_updateOutside (s s' : ClimState) (now : Nat) (data : RespData)
    (hfc : s'.failCount = s.failCount) : pollOutcome s now (updateOutside s' now data) := by
  unfold updateOutside
  split
  · exact pollOutcome_updateFail s s' now hfc
  · exact pollOutcome_updateTarget s _ now _ hfc

/-- An ungated poll always lands in one of the two outcomes. -/
theorem pollOutcome_update (s : ClimState) (now : Nat) (res : HttpResult)
    (hgate : s.nextRetry ≤ now) : pollOutcome s now (update s now res) := by
  unfold update
  rw [if_neg (Nat.not_lt.mpr hgate)]
  split
  · exact pollOutcome_updateFail s s now rfl
  · split
    · exact pollOutcome_updateFail s s now rfl
    · split
      · exact pollOutcome_updateOutside s _ now _ rfl
      · split
        · exact pollOutcome_updateFail s s now rfl
        · exact pollOutcome_updateOutside s _ now _ rfl

/-- A poll that ends available has reset the failure bookkeeping. -/
theorem poll_success_shape (s : ClimState) (now : Nat) (data : RespData)
    (hgate : s.nextRetry ≤ now)
    (hav : (update s now (HttpResult.ok data)).attrAvailable = true) :
    (update s now (HttpResult.ok data)).failCount = 0 ∧
    (update s now (HttpResult.ok data)).nextRetry = 0 := by
  rcases pollOutcome_update s now (HttpResult.ok data) hgate with ⟨_, h2, h3⟩ | ⟨h1, _, _⟩
  · exact ⟨h2, h3⟩
  · rw [hav] at h1
    cases h1

/-- C2: consecutive transport failures drive the failure count to
min(k, 5), with next-allowed-retry equal to the last failure time plus
BACKOFFS[count - 1] (hence 300 s once saturated at 5); an update call
before the retry gate is a no-op; and a successful poll resets the count
and the gate to zero. -/
theorem c2_backoff :
    (∀ (s : ClimState) (ts : List Nat), s.failCount = 0 →
      failure_times_ok s ts = true →
      (run_failures s ts).failCount = min ts.length 5 ∧
      (∀ tl, ts.getLast? = some tl →
        (run_failures s ts).nextRetry =
          tl + BACKOFFS.getD (min ts.length 5 - 1) 0)) ∧
    (∀ (s : ClimState) (now : Nat) (res : HttpResult),
      now < s.nextRetry → update s now res = s) ∧
    (∀ (s : ClimState) (now : Nat) (data : RespData), s.nextRetry ≤ now →
      (update s now (HttpResult.ok data)).attrAvailable = true →
      (update s now (HttpResult.ok data)).failCount = 0 ∧
      (update s now (HttpResult.ok data)).nextRetry = 0) := by
  refine ⟨?_, ?_, ?_⟩
  · intro s ts h0 hok
    obtain ⟨hfc, _, hlast⟩ := run_failures_general ts s (by omega) hok
    rw [h0] at hfc hlast
    simp only [Nat.zero_add] at hfc hlast
    exact ⟨hfc, hlast⟩
  · intro s now res h
    simp [update, h]
  · intro s now data hgate hav
    have hsucc := poll_success_shape s now data hgate hav
    exact hsucc

/-- C9 (amended): the poll cycle is a total function whose every outcome is
either the backoff-gated no-op, a success that resets the failure
bookkeeping, or a failure absorbed into the availability flag and retry
schedule; no other behavior is possible. -/
theorem c9_update_total (s : ClimState) (now : Nat) (res : HttpResult) :
    (now < s.nextRetry → update s now res = s) ∧
    (s.nextRetry ≤ now → pollOutcome s now (update s now res)) := by
  constructor
  · intro h
    simp [update, h]
  · intro h
    exact pollOutcome_update s now res h

/-- Witness for C9 at a concrete failing poll. -/
theorem c9_witness : pollOutcome initState 0 (update initState 0 HttpResult.fail) :=
  (c9_update_total initState 0 HttpResult.fail).2 (Nat.le_refl 0)

/-- Counterexample to C9 as stated: a poll that fails mid-parse has already
overwritten the mode, so the last-known snapshot is not retained. -/
theorem c9_counterexample :
    (update sCool 0 (HttpResult.ok dBad)).attrAvailable = false ∧
    (update sCool 0 (HttpResult.ok dBad)).hvacMode ≠ sCool.hvacMode := by
  decide

/-- The raise-free tail never changes the mode. -/
theorem updateTail_hvacMode (s : ClimState) (data : RespData) :
    (updateTail s data).hvacMode = s.hvacMode := rfl

/-- With the unit off the tail reports swing off. -/
theorem updateTail_swing_off (s : ClimState) (data : RespData)
    (h : s.hvacMode = HVACMode.off) : (updateTail s data).swingMode = SwingMode.off := by
  simp [updateTail, h]

/-- Fan stage in Off mode: no fan slot, fan forced to Auto, tail reached. -/
theorem c6_fan (s' : ClimState) (now : Nat) (data : RespData)
    (hmode : s'.hvacMode = HVACMode.off) :
    (updateFan s' now data).hvacMode = HVACMode.off ∧
    (updateFan s' now data).fanMode = HAFanMode.auto ∧
    (updateFan s' now data).swingMode = SwingMode.off := by
  unfold updateFan
  split
  · rename_i attr heq
    rw [hmode] at heq
    simp [fanSpeedAttrName] at heq
  · exact ⟨hmode, rfl, updateTail_swing_off _ _ hmode⟩

/-- Indoor-temperature stage in Off mode under a successful poll. -/
theorem c6_current (s' : ClimState) (now : Nat) (data : RespData)
    (hmode : s'.hvacMode = HVACMode.off)
    (hav : (updateCurrent s' now data).attrAvailable = true) :
    (updateCurrent s' now data).hvacMode = HVACMode.off ∧
    (updateCurrent s' now data).fanMode = HAFanMode.auto ∧
    (updateCurrent s' now data).swingMode = SwingMode.off := by
  unfold updateCurrent at hav ⊢
  split at hav
  · simp [updateFail] at hav
  · rename_i t heq
    try simp only [heq]
    exact c6_fan _ now data hmode

/-- Target stage in Off mode under a successful poll. -/
theorem c6_target (s' : ClimState) (now : Nat) (data : RespData)
    (hmode : s'.hvacMode = HVACMode.off)
    (hav : (updateTarget s' now data).attrAvailable = true) :
    (updateTarget s' now data).hvacMode = HVACMode.off ∧
    (updateTarget s' now data).fanMode = HAFanMode.auto ∧
    (updateTarget s' now data).swingMode = SwingMode.off := by
  unfold updateTarget at hav ⊢
  exact c6_current _ now data hmode hav

/-- Outdoor stage in Off mode under a successful poll. -/
theorem c6_outside (s' : ClimState) (now : Nat) (data : RespData)
    (hmode : s'.hvacMode = HVACMode.off)
    (hav : (updateOutside s' now data).attrAvailable = true) :
    (updateOutside s' now data).hvacMode = HVACMode.off ∧
    (updateOutside s' now data).fanMode = HAFanMode.auto ∧
    (updateOutside s' now data).swingMode = SwingMode.off := by
  unfold updateOutside at hav ⊢
  split at hav
  · simp [updateFail] at hav
  · rename_i t heq
    try simp only [heq]
    exact c6_target _ now data hmode hav

/-- C6 (amended): for every poll response that parses to completion (the
poll ends available) with power flag 00, the snapshot ends with mode off,
swing off, and fan Auto, regardless of the other fields present. -/
theorem c6_power_off_amended (s : ClimState) (now : Nat) (data : RespData)
    (hgate : s.nextRetry ≤ now)
    (hpow : find_value_by_pn data adrStatus ["dgc_status", "e_1002", "e_A002", "p_01"] =
      some (some (JVal.s "00")))
    (hav : (update s now (HttpResult.ok data)).attrAvailable = true) :
    (update s now (HttpResult.ok data)).hvacMode = HVACMode.off ∧
    (update s now (HttpResult.ok data)).fanMode = HAFanMode.auto ∧
    (update s now (HttpResult.ok data)).swingMode = SwingMode.off := by
  unfold update at hav ⊢
  rw [if_neg (Nat.not_lt.mpr hgate)] at hav ⊢
  simp only [hpow] at hav ⊢
  exact c6_outside _ now data rfl hav

/-- Witness for C6 at a complete powered-off response. -/
theorem c6_witness :
    (initState.nextRetry ≤ 0 ∧
     find_value_by_pn dFull adrStatus ["dgc_status", "e_1002", "e_A002", "p_01"] =
       some (some (JVal.s "00")) ∧
     (update initState 0 (HttpResult.ok dFull)).attrAvailable = true) ∧
    ((update initState 0 (HttpResult.ok dFull)).hvacMode = HVACMode.off ∧
     (update initState 0 (HttpResult.ok dFull)).fanMode = HAFanMode.auto ∧
     (update initState 0 (HttpResult.ok dFull)).swingMode = SwingMode.off) :=
  ⟨⟨by decide, by rfl, by rfl⟩,
   c6_power_off_amended initState 0 dFull (by decide) (by rfl) (by rfl)⟩

/-- Counterexample to C6 as stated: a response whose power flag is 00 but
which is missing the outdoor temperature leaves the previous fan speed and
swing state in place. -/
theorem c6_counterexample :
    find_value_by_pn dBad adrStatus ["dgc_status", "e_1002", "e_A002", "p_01"] =
      some (some (JVal.s "00")) ∧
    (update sCool 0 (HttpResult.ok dBad)).fanMode ≠ HAFanMode.auto ∧
    (update sCool 0 (HttpResult.ok dBad)).swingMode ≠ SwingMode.off := by
  decide

/-- Witness for C2: seven ungated consecutive failures from a fresh state
saturate the count at 5 and schedule the retry 300 s after the last one. -/
theorem c2_witness :
    (initState.failCount = 0 ∧
      failure_times_ok initState [0, 10, 40, 100, 220, 520, 820] = true) ∧
    (run_failures initState [0, 10, 40, 100, 220, 520, 820]).failCount = 5 ∧
    (run_failures initState [0, 10, 40, 100, 220, 520, 820]).nextRetry = 1120 := by
  have h := c2_backoff.1 initState [0, 10, 40, 100, 220, 520, 820] rfl (by rfl)
  refine ⟨⟨rfl, by rfl⟩, ?_, ?_⟩
  · exact h.1.trans (by rfl)
  · exact (h.2 820 (by rfl)).trans (by rfl)

/-- A write acknowledged with a recognized code posts once and then
refreshes once. -/
theorem ua_trace_ok (s : ClimState) (req : Payload) (env : UAEnv)
    (h : wroteOk env = true) :
    (update_attribute s req env).2 = [Ev.post req, Ev.poll] := by
  cases henv : env.writeResult with
  | fail => simp [wroteOk, henv] at h
  | ok resp =>
    cases resp with
    | nil => simp [wroteOk, henv] at h
    | cons r0 rest =>
      have hc : r0.rsc = some 2000 ∨ r0.rsc = some 2004 := by
        simpa [wroteOk, henv] using h
      rcases hc with hc | hc <;> simp [update_attribute, henv, hc]

/-- C3 (amended): setMode(Cool) issues exactly the power-on write followed
by the mode write with the commit marker, and triggers one refresh poll
after each successful write, so two refresh polls in total. -/
theorem c3_two_writes_two_polls (s : ClimState) (env1 env2 : UAEnv)
    (h1 : wroteOk env1 = true) (h2 : wroteOk env2 = true) :
    (set_hvac_mode s HVACMode.cool env1 env2).2 =
      [Ev.post powerOnPayload, Ev.poll, Ev.post coolModePayload, Ev.poll] := by
  have e1 := ua_trace_ok s
    (serialize [DaikinAttribute.mk "p_01" "01" ["e_1002", "e_A002"] adrStatus]) env1 h1
  have e2 := ua_trace_ok (update_attribute s
      (serialize [DaikinAttribute.mk "p_01" "01" ["e_1002", "e_A002"] adrStatus]) env1).1
    (serialize [DaikinAttribute.mk "p_01" "0200" ["e_1002", "e_3001"] adrStatus,
                DaikinAttribute.mk "p_2D" "02" ["e_1002", "e_3003"] adrStatus]) env2 h2
  show ((update_attribute _ _ env2).1,
        (update_attribute s _ env1).2 ++ (update_attribute _ _ env2).2).2 = _
  rw [show ((update_attribute (update_attribute s
      (serialize [DaikinAttribute.mk "p_01" "01" ["e_1002", "e_A002"] adrStatus]) env1).1
      (serialize [DaikinAttribute.mk "p_01" "0200" ["e_1002", "e_3001"] adrStatus,
                  DaikinAttribute.mk "p_2D" "02" ["e_1002", "e_3003"] adrStatus]) env2).1,
      (update_attribute s
        (serialize [DaikinAttribute.mk "p_01" "01" ["e_1002", "e_A002"] adrStatus]) env1).2 ++
      (update_attribute (update_attribute s
        (serialize [DaikinAttribute.mk "p_01" "01" ["e_1002", "e_A002"] adrStatus]) env1).1
        (serialize [DaikinAttribute.mk "p_01" "0200" ["e_1002", "e_3001"] adrStatus,
                    DaikinAttribute.mk "p_2D" "02" ["e_1002", "e_3003"] adrStatus]) env2).2).2 =
      (update_attribute s
        (serialize [DaikinAttribute.mk "p_01" "01" ["e_1002", "e_A002"] adrStatus]) env1).2 ++
      (update_attribute (update_attribute s
        (serialize [DaikinAttribute.mk "p_01" "01" ["e_1002", "e_A002"] adrStatus]) env1).1
        (serialize [DaikinAttribute.mk "p_01" "0200" ["e_1002", "e_3001"] adrStatus,
                    DaikinAttribute.mk "p_2D" "02" ["e_1002", "e_3003"] adrStatus]) env2).2
    from rfl]
  rw [e1, e2]
  rfl

/-- Witness for C3 with both writes acknowledged. -/
theorem c3_witness :
    (wroteOk cEnvOk = true) ∧
    (set_hvac_mode initState HVACMode.cool cEnvOk cEnvOk).2 =
      [Ev.post powerOnPayload, Ev.poll, Ev.post coolModePayload, Ev.poll] :=
  ⟨rfl, c3_two_writes_two_polls initState cEnvOk cEnvOk rfl rfl⟩

/-- Counterexample to C3 as stated: with both writes acknowledged, the
dispatch triggers two refresh polls, not exactly one. -/
theorem c3_counterexample :
    wroteOk cEnvOk = true ∧
    ((set_hvac_mode initState HVACMode.cool cEnvOk cEnvOk).2.filter
      (fun e => match e with | Ev.poll => true | _ => false)).length = 2 := by
  exact ⟨rfl, rfl⟩

/-- C4 (code evaluated at the failing input): a successful poll whose
weekly series has real samples ending in 4 yields an energy-today sensor
reading of 4, but the energy-yesterday and week-total sensors read null
because the climate entity never publishes those attributes; the all-zero
series yields null for all three via the zero sentinel. -/
theorem c4_energy_sensors_eval :
    (update initState 0 (HttpResult.ok dFull)).attrAvailable = true ∧
    energy_today_sensor (update initState 0 (HttpResult.ok dFull)) = some (JVal.n 4) ∧
    energy_yesterday_sensor (update initState 0 (HttpResult.ok dFull)) = none ∧
    energy_week_total_sensor (update initState 0 (HttpResult.ok dFull)) = none ∧
    (update initState 0 (HttpResult.ok dZero)).attrAvailable = true ∧
    energy_today_sensor (update initState 0 (HttpResult.ok dZero)) = none ∧
    energy_yesterday_sensor (update initState 0 (HttpResult.ok dZero)) = none ∧
    energy_week_total_sensor (update initState 0 (HttpResult.ok dZero)) = none := by
  refine ⟨by rfl, by decide, by rfl, by rfl, by rfl, by decide, by rfl, by rfl⟩

/-- The Boolean duplicate check agrees with Nodup. -/
theorem strNodup_iff (l : List String) : strNodup l = true ↔ l.Nodup := by
  induction l with
  | nil => simp [strNodup]
  | cons s rest ih =>
    rw [strNodup, Bool.and_eq_true, List.nodup_cons, ih]
    constructor
    · rintro ⟨h1, h2⟩
      refine ⟨fun hm => ?_, h2⟩
      rw [Bool.not_eq_true', ← Bool.not_eq_true] at h1
      exact h1 (List.elem_eq_true_of_mem hm)
    · rintro ⟨h1, h2⟩
      refine ⟨?_, h2⟩
      rw [Bool.not_eq_true']
      by_contra hc
      rw [Bool.not_eq_false] at hc
      exact h1 (List.mem_of_elem_eq_true hc)

/-- Splitting at the first match decomposes the list, the pivot satisfies
the predicate, and nothing before it does. -/
theorem splitFirstBy_some (p : α → Bool) :
    ∀ (l pre : List α) (x : α) (post : List α),
      splitFirstBy p l = some (pre, x, post) →
      l = pre ++ x :: post ∧ p x = true ∧ ∀ y ∈ pre, p y = false := by
  intro l
  induction l with
  | nil => intro pre x post h; simp [splitFirstBy] at h
  | cons a as ih =>
    intro pre x post h
    rw [splitFirstBy] at h
    by_cases hp : p a
    · rw [if_pos hp] at h
      injection h with h
      simp only [Prod.mk.injEq] at h
      obtain ⟨h1, h2, h3⟩ := h
      subst h1
      subst h2
      subst h3
      exact ⟨rfl, hp, by intro y hy; simp at hy⟩
    · rw [if_neg hp] at h
      cases hs : splitFirstBy p as with
      | none => rw [hs] at h; simp at h
      | some r =>
        rw [hs] at h
        obtain ⟨pre2, x2, post2⟩ := r
        simp only [Option.map_some'] at h
        injection h with h
        simp only [Prod.mk.injEq] at h
        obtain ⟨e1, e2, e3⟩ := h
        subst e1
        subst e2
        subst e3
        obtain ⟨g1, g2, g3⟩ := ih pre2 x2 post2 hs
        refine ⟨by rw [g1]; rfl, g2, ?_⟩
        intro y hy
        rcases List.mem_cons.mp hy with hy | hy
        · rw [hy]
          exact Bool.not_eq_true _ ▸ hp
        · exact g3 y hy

/-- When no element matches, splitting returns none. -/
theorem splitFirstBy_none (p : α → Bool) :
    ∀ l : List α, splitFirstBy p l = none → ∀ y ∈ l, p y = false := by
  intro l
  induction l with
  | nil => intro _ y hy; simp at hy
  | cons a as ih =>
    intro h y hy
    rw [splitFirstBy] at h
    by_cases hp : p a
    · rw [if_pos hp] at h; simp at h
    · rw [if_neg hp] at h
      rcases List.mem_cons.mp hy with hy | hy
      · rw [hy]; exact Bool.not_eq_true _ ▸ hp
      · cases hs : splitFirstBy p as with
        | none => exact ih hs y hy
        | some r => rw [hs] at h; simp at h

/-- Observation of the empty forest is empty. -/
theorem nodesAt_nil (q : List String) : nodesAt ([] : List PNode) q = [] := by
  cases q <;> simp [nodesAt]

/-- Lookup in the empty forest fails. -/
theorem lookupPath_nil (p : List String) (nm : String) :
    lookupPath ([] : List PNode) p nm = none := by
  cases p <;> simp [lookupPath]

/-- Names after a leaf install: unchanged when the name already occurs,
appended otherwise. -/
theorem setLeafValue_map_pn (chs : List PNode) (n v : String) :
    (setLeafValue chs n v).map (fun c => c.pn) =
      if chs.any (fun c => c.pn == n) then chs.map (fun c => c.pn)
      else chs.map (fun c => c.pn) ++ [n] := by
  induction chs with
  | nil => simp [setLeafValue]
  | cons c cs ih =>
    rw [setLeafValue]
    by_cases hp : c.pn = n
    · simp [hp, PNode.pn]
    · have hbeq : (c.pn == n) = false := by simpa using hp
      rw [if_neg hp]
      simp only [List.map_cons, List.any_cons, hbeq, Bool.false_or, PNode.pn]
      rw [ih]
      by_cases ha : cs.any (fun c => c.pn == n)
      · rw [if_pos ha, if_pos ha]
      · rw [if_neg ha, if_neg ha]
        rfl

/-- Every node of a leaf install either keeps the children of an original
node or is the fresh childless leaf. -/
theorem setLeafValue_mem (chs : List PNode) (n v : String) :
    ∀ c' ∈ setLeafValue chs n v,
      (∃ c ∈ chs, c'.pch = c.pch) ∨ c' = PNode.mk n (some v) none := by
  induction chs with
  | nil =>
    intro c' h
    simp only [setLeafValue, List.mem_singleton] at h
    right
    exact h
  | cons c cs ih =>
    intro c' h
    rw [setLeafValue] at h
    by_cases hp : c.pn = n
    · rw [if_pos hp] at h
      rcases List.mem_cons.mp h with h | h
      · left
        exact ⟨c, List.mem_cons_self c cs, by rw [h]⟩
      · left
        exact ⟨c', List.mem_cons_of_mem _ h, rfl⟩
    · rw [if_neg hp] at h
      rcases List.mem_cons.mp h with h | h
      · left
        exact ⟨c, List.mem_cons_self c cs, by rw [h]⟩
      · rcases ih c' h with ⟨c2, hc2, he⟩ | he
        · left
          exact ⟨c2, List.mem_cons_of_mem _ hc2, he⟩
        · right
          exact he

/-- A leaf install makes the installed name read back its value. -/
theorem setLeafValue_lookup_same (chs : List PNode) (n v : String) :
    lookupPath (setLeafValue chs n v) [] n = some v := by
  induction chs with
  | nil => simp [setLeafValue, lookupPath, List.find?_cons, PNode.pn, PNode.pv]
  | cons c cs ih =>
    rw [setLeafValue]
    by_cases hp : c.pn = n
    · simp [lookupPath, List.find?_cons, PNode.pn, PNode.pv, hp]
    · have hbeq : (c.pn == n) = false := by simpa using hp
      rw [if_neg hp]
      simp only [lookupPath, List.find?_cons, PNode.pn, hbeq] at ih ⊢
      exact ih

/-- A leaf install leaves other leaf names unchanged. -/
theorem setLeafValue_lookup_other (chs : List PNode) (nmod v n : String)
    (hne : n ≠ nmod) :
    lookupPath (setLeafValue chs nmod v) [] n = lookupPath chs [] n := by
  induction chs with
  | nil =>
    have hbeq : (nmod == n) = false := by simpa using (Ne.symm hne)
    simp [setLeafValue, lookupPath, List.find?_cons, PNode.pn, hbeq]
  | cons c cs ih =>
    rw [setLeafValue]
    by_cases hp : c.pn = nmod
    · subst hp
      have hbeq : (c.pn == n) = false := by simpa using (Ne.symm hne)
      simp [lookupPath, List.find?_cons, hbeq]
    · rw [if_neg hp]
      by_cases hcn : c.pn = n
      · have hbeq : (c.pn == n) = true := by simpa using hcn
        simp [lookupPath, List.find?_cons, PNode.pn, PNode.pv, hbeq]
      · have hbeq : (c.pn == n) = false := by simpa using hcn
        simp only [lookupPath, List.find?_cons, PNode.pn, hbeq] at ih ⊢
        exact ih

/-- A leaf install never changes what a deeper path reads. -/
theorem setLeafValue_lookup_cons (chs : List PNode) (nmod v j : String)
    (js : List String) (nm : String) :
    lookupPath (setLeafValue chs nmod v) (j :: js) nm =
      lookupPath chs (j :: js) nm := by
  induction chs with
  | nil =>
    rw [setLeafValue, lookupPath_nil]
    by_cases hj : nmod = j
    · have hbeq : (nmod == j) = true := by simpa using hj
      simp [lookupPath, List.find?_cons, PNode.pn, PNode.pch, hbeq, lookupPath_nil]
    · have hbeq : (nmod == j) = false := by simpa using hj
      simp [lookupPath, List.find?_cons, PNode.pn, hbeq]
  | cons c cs ih =>
    rw [setLeafValue]
    by_cases hp : c.pn = nmod
    · subst hp
      by_cases hcj : c.pn = j
      · have hbeq : (c.pn == j) = true := by simpa using hcj
        simp [lookupPath, List.find?_cons, hbeq]
      · have hbeq : (c.pn == j) = false := by simpa using hcj
        simp [lookupPath, List.find?_cons, hbeq]
    · rw [if_neg hp]
      by_cases hcj : c.pn = j
      · have hbeq : (c.pn == j) = true := by simpa using hcj
        simp [lookupPath, List.find?_cons, hbeq]
      · have hbeq : (c.pn == j) = false := by simpa using hcj
        simp only [lookupPath, List.find?_cons, hbeq] at ih ⊢
        exact ih

/-- A leaf install never changes the forest seen at a deeper path. -/
theorem setLeafValue_nodesAt_cons (chs : List PNode) (nmod v j : String)
    (js : List String) :
    nodesAt (setLeafValue chs nmod v) (j :: js) = nodesAt chs (j :: js) := by
  induction chs with
  | nil =>
    rw [setLeafValue, nodesAt_nil]
    by_cases hj : nmod = j
    · have hbeq : (nmod == j) = true := by simpa using hj
      simp [nodesAt, List.find?_cons, PNode.pn, PNode.pch, hbeq, nodesAt_nil]
    · have hbeq : (nmod == j) = false := by simpa using hj
      simp [nodesAt, List.find?_cons, PNode.pn, hbeq]
  | cons c cs ih =>
    rw [setLeafValue]
    by_cases hp : c.pn = nmod
    · subst hp
      by_cases hcj : c.pn = j
      · have hbeq : (c.pn == j) = true := by simpa using hcj
        simp [nodesAt, List.find?_cons, hbeq]
      · have hbeq : (c.pn == j) = false := by simpa using hcj
        simp [nodesAt, List.find?_cons, hbeq]
    · rw [if_neg hp]
      by_cases hcj : c.pn = j
      · have hbeq : (c.pn == j) = true := by simpa using hcj
        simp [nodesAt, List.find?_cons, hbeq]
      · have hbeq : (c.pn == j) = false := by simpa using hcj
        simp only [nodesAt, List.find?_cons, hbeq] at ih ⊢
        exact ih

/-- Appending a fresh element keeps a list duplicate-free. -/
theorem nodup_append_singleton (l : List α) (x : α) (hx : x ∉ l) (hl : l.Nodup) :
    (l ++ [x]).Nodup := by
  have h := (@List.nodup_middle α x l []).mpr
  simp only [List.append_nil] at h
  exact h (List.nodup_cons.mpr ⟨hx, hl⟩)

/-- The empty forest is well formed. -/
theorem wfChildren_nil : wfChildren ([] : List PNode) := by
  intro q
  rw [nodesAt_nil]
  rfl

/-- With pairwise distinct names, every member is its own first match. -/
theorem find?_of_mem_nodup (chs : List PNode) (c : PNode)
    (hnd : (chs.map (fun x => x.pn)).Nodup) (hm : c ∈ chs) :
    chs.find? (fun x => x.pn == c.pn) = some c := by
  induction chs with
  | nil => simp at hm
  | cons a as ih =>
    rw [List.map_cons, List.nodup_cons] at hnd
    rcases List.mem_cons.mp hm with h | h
    · subst h
      simp [List.find?_cons]
    · have hne : (a.pn == c.pn) = false := by
        simp only [beq_eq_false_iff_ne, ne_eq]
        intro he
        exact hnd.1 (he ▸ List.mem_map_of_mem (fun x => x.pn) h)
      rw [List.find?_cons, hne]
      exact ih hnd.2 h

/-- Well-formedness of a forest is name uniqueness at the top level plus
well-formedness of every member subtree. -/
theorem wfChildren_iff (chs : List PNode) :
    wfChildren chs ↔
      (chs.map (fun c => c.pn)).Nodup ∧ ∀ c ∈ chs, wfChildren (c.pch.getD []) := by
  constructor
  · intro h
    have hnd : (chs.map (fun c => c.pn)).Nodup := (strNodup_iff _).mp (h [])
    refine ⟨hnd, ?_⟩
    intro c hm q
    have h2 : nodesAt chs (c.pn :: q) = nodesAt (c.pch.getD []) q := by
      rw [nodesAt, find?_of_mem_nodup chs c hnd hm]
    have := h (c.pn :: q)
    rw [h2] at this
    exact this
  · rintro ⟨hnd, hsub⟩ q
    cases q with
    | nil => simpa [nodesAt, strNodup_iff] using hnd
    | cons j js =>
      rw [nodesAt]
      cases hf : chs.find? (fun c => c.pn == j) with
      | none => rfl
      | some c => exact hsub c (List.mem_of_find?_eq_some hf) js

/-- Installing a write into a well-formed forest keeps it well formed: no
level ever gains a duplicate name. -/
theorem insertPathC_wf :
    ∀ (p : List String) (chs : List PNode) (n v : String),
      wfChildren chs → wfChildren (insertPathC chs p n v) := by
  intro p
  induction p with
  | nil =>
    intro chs n v h
    rw [wfChildren_iff] at h ⊢
    obtain ⟨hnd, hsub⟩ := h
    constructor
    · show ((setLeafValue chs n v).map (fun c => c.pn)).Nodup
      rw [setLeafValue_map_pn]
      by_cases ha : chs.any (fun c => c.pn == n)
      · rw [if_pos ha]
        exact hnd
      · rw [if_neg ha]
        have hna : n ∉ chs.map (fun c => c.pn) := by
          intro hmem
          obtain ⟨c, hc, he⟩ := List.mem_map.mp hmem
          have := List.any_eq_false.mp (Bool.not_eq_true _ ▸ ha) c hc
          simp [he] at this
        exact nodup_append_singleton _ n hna hnd
    · intro c' hc'
      rcases setLeafValue_mem chs n v c' hc' with ⟨c, hc, he⟩ | he
      · rw [he]
        exact hsub c hc
      · rw [he]
        exact wfChildren_nil
  | cons k ks ih =>
    intro chs n v h
    rw [insertPathC]
    cases hs : splitFirstBy (fun c => c.pn == k) chs with
    | some r =>
      obtain ⟨pre, c, post⟩ := r
      obtain ⟨hdec, hpk, hpre⟩ := splitFirstBy_some _ chs pre c post hs
      subst hdec
      rw [wfChildren_iff] at h ⊢
      obtain ⟨hnd, hsub⟩ := h
      constructor
      · simpa using hnd
      · intro c' hc'
        rcases List.mem_append.mp hc' with hc' | hc'
        · exact hsub c' (List.mem_append.mpr (Or.inl hc'))
        · rcases List.mem_cons.mp hc' with hc' | hc'
          · rw [hc']
            show wfChildren ((some (insertPathC (c.pch.getD []) ks n v)).getD [])
            simp only [Option.getD_some]
            exact ih (c.pch.getD []) n v
              (hsub c (List.mem_append.mpr (Or.inr (List.mem_cons_self c post))))
          · exact hsub c' (List.mem_append.mpr (Or.inr (List.mem_cons_of_mem c hc')))
    | none =>
      have hall := splitFirstBy_none _ chs hs
      rw [wfChildren_iff] at h ⊢
      obtain ⟨hnd, hsub⟩ := h
      constructor
      · have hna : k ∉ chs.map (fun c => c.pn) := by
          intro hmem
          obtain ⟨c, hc, he⟩ := List.mem_map.mp hmem
          have := hall c hc
          simp [he] at this
        have h2 := nodup_append_singleton _ k hna hnd
        simpa using h2
      · intro c' hc'
        rcases List.mem_append.mp hc' with hc' | hc'
        · exact hsub c' hc'
        · rw [List.mem_singleton.mp hc']
          show wfChildren ((some (insertPathC [] ks n v)).getD [])
          simp only [Option.getD_some]
          exact ih [] n v wfChildren_nil

/-- Leaf reads do not distinguish middles that agree on name and value. -/
theorem lookup_nil_middle (pre post : List PNode) (x y : PNode) (n : String)
    (hpn : x.pn = y.pn) (hpv : x.pv = y.pv) :
    lookupPath (pre ++ x :: post) [] n = lookupPath (pre ++ y :: post) [] n := by
  rw [lookupPath, lookupPath, List.find?_append, List.find?_append,
    List.find?_cons, List.find?_cons, hpn]
  cases hf : pre.find? (fun c => c.pn == n) with
  | some c => rfl
  | none =>
    simp only [Option.none_or]
    cases hb : (y.pn == n) with
    | true => simpa using hpv
    | false => rfl

/-- Searches for a different name do not distinguish middles that agree on
name. -/
theorem find?_middle_other (pre post : List PNode) (x y : PNode) (j : String)
    (hpn : x.pn = y.pn) (hj : (y.pn == j) = false) :
    (pre ++ x :: post).find? (fun c => c.pn == j) =
      (pre ++ y :: post).find? (fun c => c.pn == j) := by
  rw [List.find?_append, List.find?_append, List.find?_cons, List.find?_cons, hpn, hj]

/-- Installing a write makes its own destination slot read the value. -/
theorem insertPathC_lookup_same :
    ∀ (p : List String) (chs : List PNode) (n v : String),
      lookupPath (insertPathC chs p n v) p n = some v := by
  intro p
  induction p with
  | nil =>
    intro chs n v
    rw [insertPathC]
    exact setLeafValue_lookup_same chs n v
  | cons k ks ih =>
    intro chs n v
    rw [insertPathC]
    cases hs : splitFirstBy (fun c => c.pn == k) chs with
    | some r =>
      obtain ⟨pre, c, post⟩ := r
      obtain ⟨hdec, hpk, hpre⟩ := splitFirstBy_some _ chs pre c post hs
      have hfpre : pre.find? (fun c => c.pn == k) = none :=
        List.find?_eq_none.mpr (fun x hx => by simp [hpre x hx])
      rw [lookupPath, List.find?_append, hfpre, Option.none_or, List.find?_cons]
      simp only [hpk]
      simp only [Option.getD_some]
      exact ih _ n v
    | none =>
      have hfchs : chs.find? (fun c => c.pn == k) = none :=
        List.find?_eq_none.mpr (fun x hx => by simp [splitFirstBy_none _ chs hs x hx])
      rw [lookupPath, List.find?_append, hfchs, Option.none_or, List.find?_cons]
      simp only [beq_self_eq_true]
      simp only [Option.getD_some]
      exact ih [] n v

/-- Unfolding of the path walk when the key is found. -/
theorem insertPathC_cons_some (chs : List PNode) (k : String) (ks : List String)
    (n v : String) (pre : List PNode) (c : PNode) (post : List PNode)
    (hs : splitFirstBy (fun c => c.pn == k) chs = some (pre, c, post)) :
    insertPathC chs (k :: ks) n v =
      pre ++ PNode.mk c.pn c.pv (some (insertPathC (c.pch.getD []) ks n v)) :: post := by
  rw [insertPathC, hs]

/-- Unfolding of the path walk when the key is absent. -/
theorem insertPathC_cons_none (chs : List PNode) (k : String) (ks : List String)
    (n v : String)
    (hs : splitFirstBy (fun c => c.pn == k) chs = none) :
    insertPathC chs (k :: ks) n v =
      chs ++ [PNode.mk k none (some (insertPathC [] ks n v))] := by
  rw [insertPathC, hs]

/-- Installing a write leaves every other slot unchanged. -/
theorem insertPathC_lookup_other :
    ∀ (pIns : List String) (chs : List PNode) (nIns vIns : String)
      (p : List String) (n : String), (p ≠ pIns ∨ n ≠ nIns) →
      lookupPath (insertPathC chs pIns nIns vIns) p n = lookupPath chs p n := by
  intro pIns
  induction pIns with
  | nil =>
    intro chs nIns vIns p n hne
    rw [insertPathC]
    cases p with
    | nil =>
      have hnn : n ≠ nIns := by
        rcases hne with h | h
        · exact absurd rfl h
        · exact h
      exact setLeafValue_lookup_other chs nIns vIns n hnn
    | cons j js => exact setLeafValue_lookup_cons chs nIns vIns j js n
  | cons k ks ih =>
    intro chs nIns vIns p n hne
    cases hs : splitFirstBy (fun c => c.pn == k) chs with
    | some r =>
      obtain ⟨pre, c, post⟩ := r
      obtain ⟨hdec, hpk, hpre⟩ := splitFirstBy_some _ chs pre c post hs
      rw [insertPathC_cons_some chs k ks nIns vIns pre c post hs, hdec]
      have hck : c.pn = k := by simpa using hpk
      cases p with
      | nil => exact lookup_nil_middle pre post _ c n rfl rfl
      | cons j js =>
        by_cases hjk : j = k
        · subst hjk
          have hfpre : pre.find? (fun x => x.pn == j) = none :=
            List.find?_eq_none.mpr (fun x hx => by simp [hpre x hx])
          rw [lookupPath, lookupPath, List.find?_append, List.find?_append, hfpre,
            Option.none_or, Option.none_or, List.find?_cons, List.find?_cons]
          simp only [hpk]
          simp only [Option.getD_some]
          have hsub : js ≠ ks ∨ n ≠ nIns := by
            rcases hne with h | h
            · left
              intro he
              exact h (by rw [he])
            · right
              exact h
          exact ih (c.pch.getD []) nIns vIns js n hsub
        · have hcj : (c.pn == j) = false := by
            simp only [beq_eq_false_iff_ne, ne_eq, hck]
            exact fun he => hjk he.symm
          rw [lookupPath, lookupPath, find?_middle_other pre post
            (PNode.mk c.pn c.pv (some (insertPathC (c.pch.getD []) ks nIns vIns))) c j rfl hcj]
    | none =>
      have hall := splitFirstBy_none _ chs hs
      rw [insertPathC_cons_none chs k ks nIns vIns hs]
      cases p with
      | nil =>
        rw [lookupPath, lookupPath, List.find?_append]
        cases hf : chs.find? (fun c => c.pn == n) with
        | some c => rfl
        | none =>
          simp only [Option.none_or, List.find?_cons]
          cases hb : ((PNode.mk k none (some (insertPathC [] ks nIns vIns))).pn == n) with
          | true => rfl
          | false => rfl
      | cons j js =>
        by_cases hjk : j = k
        · subst hjk
          have hfchs : chs.find? (fun x => x.pn == j) = none :=
            List.find?_eq_none.mpr (fun x hx => by simp [hall x hx])
          rw [lookupPath, lookupPath, List.find?_append, hfchs, Option.none_or,
            List.find?_cons]
          simp only [beq_self_eq_true]
          simp only [Option.getD_some]
          have hsub : js ≠ ks ∨ n ≠ nIns := by
            rcases hne with h | h
            · left
              intro he
              exact h (by rw [he])
            · right
              exact h
          rw [ih [] nIns vIns js n hsub, lookupPath_nil]
        · have hkj : ((PNode.mk k none (some (insertPathC [] ks nIns vIns))).pn == j) = false := by
            simp only [beq_eq_false_iff_ne, ne_eq]
            exact fun he => hjk he.symm
          rw [lookupPath, lookupPath, List.find?_append, List.find?_cons, hkj]
          cases hf : chs.find? (fun c => c.pn == j) with
          | some c => rfl
          | none => rfl

/-- A first-match search skips middles on which the predicate fails. -/
theorem find?_middle_false (p : α → Bool) (pre post : List α) (x y : α)
    (hx : p x = false) (hy : p y = false) :
    (pre ++ x :: post).find? p = (pre ++ y :: post).find? p := by
  rw [List.find?_append, List.find?_append, List.find?_cons, List.find?_cons, hx, hy]

/-- Unfolding of the serialize loop when the destination exists. -/
theorem serializeStep_some (reqs : Payload) (attr : DaikinAttribute)
    (pre : List RequestObj) (r : RequestObj) (post : List RequestObj)
    (hs : splitFirstBy (fun x => x.dest == attr.dest) reqs = some (pre, r, post)) :
    serializeStep reqs attr =
      pre ++ RequestObj.mk r.op r.dest
        (PNode.mk r.pc.pn r.pc.pv
          (some (insertPathC (r.pc.pch.getD []) attr.path attr.name attr.value))) :: post := by
  rw [serializeStep, hs]

/-- Unfolding of the serialize loop when the destination is new. -/
theorem serializeStep_none (reqs : Payload) (attr : DaikinAttribute)
    (hs : splitFirstBy (fun x => x.dest == attr.dest) reqs = none) :
    serializeStep reqs attr =
      reqs ++ [RequestObj.mk 3 attr.dest
        (PNode.mk (rootPn attr.dest) none
          (some (insertPathC [] attr.path attr.name attr.value)))] := by
  rw [serializeStep, hs]

/-- One serialize iteration: the written slot reads the new value, every
other slot is untouched. -/
theorem serializeStep_lookup (reqs : Payload) (a : DaikinAttribute) (d : String)
    (p : List String) (n : String) :
    serLookup (serializeStep reqs a) d p n =
      if a.dest = d ∧ a.path = p ∧ a.name = n then some a.value
      else serLookup reqs d p n := by
  cases hs : splitFirstBy (fun x => x.dest == a.dest) reqs with
  | some rr =>
    obtain ⟨pre, r, post⟩ := rr
    obtain ⟨hdec, hrd, hpre⟩ := splitFirstBy_some _ reqs pre r post hs
    rw [serializeStep_some reqs a pre r post hs, hdec]
    have hrda : r.dest = a.dest := by simpa using hrd
    by_cases hd : a.dest = d
    · subst hd
      have hfpre : pre.find? (fun x => x.dest == a.dest) = none :=
        List.find?_eq_none.mpr (fun x hx => by simp [hpre x hx])
      rw [serLookup, serLookup, List.find?_append, List.find?_append, hfpre,
        Option.none_or, Option.none_or, List.find?_cons, List.find?_cons]
      simp only [hrd]
      simp only [Option.getD_some]
      by_cases hpn : a.path = p ∧ a.name = n
      · rw [if_pos (⟨by trivial, hpn.1, hpn.2⟩ : _ ∧ _ ∧ _)]
        obtain ⟨hp, hn⟩ := hpn
        subst hp
        subst hn
        exact insertPathC_lookup_same a.path _ a.name a.value
      · have hne2 : p ≠ a.path ∨ n ≠ a.name := by
          rcases Decidable.not_and_iff_or_not.mp hpn with h | h
          · left
            exact fun he => h he.symm
          · right
            exact fun he => h he.symm
        rw [if_neg (fun hc => hpn ⟨hc.2.1, hc.2.2⟩)]
        exact insertPathC_lookup_other a.path (r.pc.pch.getD []) a.name a.value p n hne2
    · rw [if_neg (fun hc => hd hc.1)]
      have hrx : ((RequestObj.mk r.op r.dest
          (PNode.mk r.pc.pn r.pc.pv
            (some (insertPathC (r.pc.pch.getD []) a.path a.name a.value)))).dest == d)
          = false := by
        simp only [beq_eq_false_iff_ne, ne_eq, hrda]
        exact fun he => hd he
      have hry : (r.dest == d) = false := by
        simp only [beq_eq_false_iff_ne, ne_eq, hrda]
        exact fun he => hd he
      rw [serLookup, serLookup, find?_middle_false _ pre post _ r hrx hry]
  | none =>
    have hall := splitFirstBy_none _ reqs hs
    rw [serializeStep_none reqs a hs]
    by_cases hd : a.dest = d
    · subst hd
      have hfchs : reqs.find? (fun x => x.dest == a.dest) = none :=
        List.find?_eq_none.mpr (fun x hx => by simp [hall x hx])
      rw [serLookup, serLookup, List.find?_append, hfchs, Option.none_or,
        List.find?_cons]
      simp only [beq_self_eq_true]
      simp only [Option.getD_some]
      by_cases hpn : a.path = p ∧ a.name = n
      · rw [if_pos (⟨by trivial, hpn.1, hpn.2⟩ : _ ∧ _ ∧ _)]
        obtain ⟨hp, hn⟩ := hpn
        subst hp
        subst hn
        exact insertPathC_lookup_same a.path [] a.name a.value
      · have hne2 : p ≠ a.path ∨ n ≠ a.name := by
          rcases Decidable.not_and_iff_or_not.mp hpn with h | h
          · left
            exact fun he => h he.symm
          · right
            exact fun he => h he.symm
        rw [if_neg (fun hc => hpn ⟨hc.2.1, hc.2.2⟩)]
        rw [insertPathC_lookup_other a.path [] a.name a.value p n hne2, lookupPath_nil]
    · rw [if_neg (fun hc => hd hc.1)]
      have hnew : ((RequestObj.mk 3 a.dest
          (PNode.mk (rootPn a.dest) none
            (some (insertPathC [] a.path a.name a.value)))).dest == d) = false := by
        simp only [beq_eq_false_iff_ne, ne_eq]
        exact fun he => hd he
      rw [serLookup, serLookup, List.find?_append, List.find?_cons, hnew]
      cases hf : reqs.find? (fun x => x.dest == d) with
      | some r => rfl
      | none => rfl

/-- Last element of a cons in terms of the tail. -/
theorem getLast?_cons_match (x : α) (l : List α) :
    (x :: l).getLast? =
      match l.getLast? with
      | some v => some v
      | none => some x := by
  cases hl : l.getLast? with
  | none =>
    rw [List.getLast?_eq_none_iff.mp hl]
    rfl
  | some v =>
    cases l with
    | nil => simp at hl
    | cons y ys => rw [List.getLast?_cons_cons, hl]

/-- The last write over a cons: later writes take precedence. -/
theorem lastWrite_cons (a : DaikinAttribute) (as : List DaikinAttribute)
    (d : String) (p : List String) (n : String) :
    lastWrite (a :: as) d p n =
      match lastWrite as d p n with
      | some v => some v
      | none => if a.dest = d ∧ a.path = p ∧ a.name = n then some a.value else none := by
  rw [lastWrite, lastWrite, List.filterMap_cons]
  by_cases hc : a.dest = d ∧ a.path = p ∧ a.name = n
  · simp only [if_pos hc]
    rw [getLast?_cons_match]
    cases hl : (as.filterMap (fun a =>
        if a.dest = d ∧ a.path = p ∧ a.name = n then some a.value else none)).getLast? with
    | none => rfl
    | some v => rfl
  · simp only [if_neg hc]
    cases hl : (as.filterMap (fun a =>
        if a.dest = d ∧ a.path = p ∧ a.name = n then some a.value else none)).getLast? with
    | none => rfl
    | some v => rfl

/-- Folding the serialize loop: the final read of any slot is the last
write to it, falling back to the initial payload. -/
theorem serialize_foldl_lookup :
    ∀ (attrs : List DaikinAttribute) (reqs : Payload) (d : String)
      (p : List String) (n : String),
      serLookup (attrs.foldl serializeStep reqs) d p n =
        match lastWrite attrs d p n with
        | some v => some v
        | none => serLookup reqs d p n := by
  intro attrs
  induction attrs with
  | nil =>
    intro reqs d p n
    rw [List.foldl_nil]
    rfl
  | cons a as ih =>
    intro reqs d p n
    rw [List.foldl_cons, ih (serializeStep reqs a) d p n, lastWrite_cons,
      serializeStep_lookup]
    cases hl : lastWrite as d p n with
    | some v => rfl
    | none =>
      by_cases hc : a.dest = d ∧ a.path = p ∧ a.name = n
      · rw [if_pos hc, if_pos hc]
      · rw [if_neg hc, if_neg hc]

/-- One serialize iteration on the destination names: unchanged when the
destination already has a request, appended otherwise. -/
theorem serializeStep_map_dest (reqs : Payload) (a : DaikinAttribute) :
    (serializeStep reqs a).map (fun r => r.dest) =
      if reqs.any (fun r => r.dest == a.dest) then reqs.map (fun r => r.dest)
      else reqs.map (fun r => r.dest) ++ [a.dest] := by
  cases hs : splitFirstBy (fun x => x.dest == a.dest) reqs with
  | some rr =>
    obtain ⟨pre, r, post⟩ := rr
    obtain ⟨hdec, hrd, hpre⟩ := splitFirstBy_some _ reqs pre r post hs
    rw [serializeStep_some reqs a pre r post hs, hdec]
    have hany : (pre ++ r :: post).any (fun x => x.dest == a.dest) = true :=
      List.any_eq_true.mpr ⟨r, List.mem_append.mpr (Or.inr (List.mem_cons_self r post)), hrd⟩
    rw [if_pos hany]
    simp
  | none =>
    have hall := splitFirstBy_none _ reqs hs
    rw [serializeStep_none reqs a hs]
    have hany : reqs.any (fun x => x.dest == a.dest) = false :=
      List.any_eq_false.mpr (fun x hx => by simp [hall x hx])
    rw [hany]
    simp

/-- Folding the serialize loop keeps destination names duplicate-free and
adds exactly the destinations of the attributes. -/
theorem serialize_foldl_tos :
    ∀ (attrs : List DaikinAttribute) (reqs : Payload),
      ((reqs.map (fun r => r.dest)).Nodup →
        ((attrs.foldl serializeStep reqs).map (fun r => r.dest)).Nodup) ∧
      (∀ d, d ∈ (attrs.foldl serializeStep reqs).map (fun r => r.dest) ↔
        d ∈ reqs.map (fun r => r.dest) ∨ ∃ a ∈ attrs, a.dest = d) := by
  intro attrs
  induction attrs with
  | nil =>
    intro reqs
    refine ⟨fun h => h, fun d => ?_⟩
    simp
  | cons a as ih =>
    intro reqs
    have hstep := serializeStep_map_dest reqs a
    constructor
    · intro hnd
      refine (ih (serializeStep reqs a)).1 ?_
      rw [hstep]
      by_cases ha : reqs.any (fun r => r.dest == a.dest)
      · rw [if_pos ha]
        exact hnd
      · rw [if_neg ha]
        have hna : a.dest ∉ reqs.map (fun r => r.dest) := by
          intro hm
          obtain ⟨r, hr, he⟩ := List.mem_map.mp hm
          have := List.any_eq_false.mp (Bool.not_eq_true _ ▸ ha) r hr
          simp [he] at this
        exact nodup_append_singleton _ a.dest hna hnd
    · intro d
      rw [List.foldl_cons, (ih (serializeStep reqs a)).2 d, hstep]
      by_cases ha : reqs.any (fun r => r.dest == a.dest)
      · rw [if_pos ha]
        constructor
        · rintro (h | ⟨x, hx, he⟩)
          · exact Or.inl h
          · exact Or.inr ⟨x, List.mem_cons_of_mem a hx, he⟩
        · rintro (h | ⟨x, hx, he⟩)
          · exact Or.inl h
          · rcases List.mem_cons.mp hx with hx | hx
            · subst hx
              obtain ⟨r, hr, hb⟩ := List.any_eq_true.mp ha
              left
              rw [← he]
              have : r.dest = x.dest := by simpa using hb
              exact this ▸ List.mem_map_of_mem (fun r => r.dest) hr
            · exact Or.inr ⟨x, hx, he⟩
      · rw [if_neg ha]
        constructor
        · rintro (h | ⟨x, hx, he⟩)
          · rcases List.mem_append.mp h with h | h
            · exact Or.inl h
            · right
              exact ⟨a, List.mem_cons_self a as, (List.mem_singleton.mp h).symm⟩
          · exact Or.inr ⟨x, List.mem_cons_of_mem a hx, he⟩
        · rintro (h | ⟨x, hx, he⟩)
          · exact Or.inl (List.mem_append.mpr (Or.inl h))
          · rcases List.mem_cons.mp hx with hx | hx
            · subst hx
              left
              exact List.mem_append.mpr (Or.inr (by simp [he]))
            · exact Or.inr ⟨x, hx, he⟩

/-- One serialize iteration keeps every request tree well formed. -/
theorem serializeStep_wf (reqs : Payload) (a : DaikinAttribute)
    (h : ∀ r ∈ reqs, wfChildren (r.pc.pch.getD [])) :
    ∀ r ∈ serializeStep reqs a, wfChildren (r.pc.pch.getD []) := by
  cases hs : splitFirstBy (fun x => x.dest == a.dest) reqs with
  | some rr =>
    obtain ⟨pre, r, post⟩ := rr
    obtain ⟨hdec, hrd, hpre⟩ := splitFirstBy_some _ reqs pre r post hs
    rw [serializeStep_some reqs a pre r post hs]
    intro r' hr'
    rcases List.mem_append.mp hr' with hr' | hr'
    · exact h r' (hdec ▸ List.mem_append.mpr (Or.inl hr'))
    · rcases List.mem_cons.mp hr' with hr' | hr'
      · rw [hr']
        show wfChildren ((some (insertPathC (r.pc.pch.getD []) a.path a.name a.value)).getD [])
        simp only [Option.getD_some]
        exact insertPathC_wf a.path (r.pc.pch.getD []) a.name a.value
          (h r (hdec ▸ List.mem_append.mpr (Or.inr (List.mem_cons_self r post))))
      · exact h r' (hdec ▸ List.mem_append.mpr (Or.inr (List.mem_cons_of_mem r hr')))
  | none =>
    rw [serializeStep_none reqs a hs]
    intro r' hr'
    rcases List.mem_append.mp hr' with hr' | hr'
    · exact h r' hr'
    · rw [List.mem_singleton.mp hr']
      show wfChildren ((some (insertPathC [] a.path a.name a.value)).getD [])
      simp only [Option.getD_some]
      exact insertPathC_wf a.path [] a.name a.value wfChildren_nil

/-- Folding the serialize loop keeps every request tree well formed. -/
theorem serialize_foldl_wf :
    ∀ (attrs : List DaikinAttribute) (reqs : Payload),
      (∀ r ∈ reqs, wfChildren (r.pc.pch.getD [])) →
      ∀ r ∈ attrs.foldl serializeStep reqs, wfChildren (r.pc.pch.getD []) := by
  intro attrs
  induction attrs with
  | nil =>
    intro reqs h
    exact h
  | cons a as ih =>
    intro reqs h
    rw [List.foldl_cons]
    exact ih (serializeStep reqs a) (serializeStep_wf reqs a h)

/-- C1: a serialized payload has exactly one request object per distinct
destination of the written attributes, at most one child per name at every
nesting level of every request tree, and every destination, path and name
slot reads the value of the last write aimed at it. -/
theorem c1_serialize_invariants (attrs : List DaikinAttribute) :
    ((serialize attrs).map (fun r => r.dest)).Nodup ∧
    (∀ d : String,
      (∃ r ∈ serialize attrs, r.dest = d) ↔ (∃ a ∈ attrs, a.dest = d)) ∧
    (∀ r ∈ serialize attrs, wfChildren (r.pc.pch.getD [])) ∧
    (∀ (d : String) (p : List String) (n : String),
      serLookup (serialize attrs) d p n = lastWrite attrs d p n) := by
  refine ⟨?_, ?_, ?_, ?_⟩
  · exact (serialize_foldl_tos attrs []).1 (by simp)
  · intro d
    have h := (serialize_foldl_tos attrs []).2 d
    simp only [List.map_nil, List.not_mem_nil, false_or] at h
    rw [show serialize attrs = attrs.foldl serializeStep [] from rfl]
    constructor
    · rintro ⟨r, hr, he⟩
      exact h.mp (he ▸ List.mem_map_of_mem (fun r => r.dest) hr)
    · intro hx
      obtain ⟨r, hr, he⟩ := List.mem_map.mp (h.mpr hx)
      exact ⟨r, hr, he⟩
  · exact serialize_foldl_wf attrs [] (by simp)
  · intro d p n
    rw [show serialize attrs = attrs.foldl serializeStep [] from rfl,
      serialize_foldl_lookup attrs [] d p n]
    cases hl : lastWrite attrs d p n with
    | some v => rfl
    | none => rfl

/-- Witness for C1 on a concrete write list with an overwrite: the payload
has one request, and the twice-written slot reads the later value. -/
theorem c1_witness :
    ((serialize demoAttrs).map (fun r => r.dest)).Nodup ∧
    serLookup (serialize demoAttrs) adrStatus ["e_1002", "e_3001"] "p_01" =
      some "0300" :=
  ⟨(c1_serialize_invariants demoAttrs).1,
   ((c1_serialize_invariants demoAttrs).2.2.2 adrStatus ["e_1002", "e_3001"] "p_01").trans
     (by decide)⟩
